import Mathlib

/-!
Verification development for the rsx render-surface store
(`src/rpcs3/Emu/RSX/Common/surface_store.h`).

The C++ core is shallowly embedded:
* machine integers become `Nat` with explicit `% 2 ^ 16` / `% 2 ^ 32`
  truncation at the points where the source stores into a `u16` field or
  performs a `u32` subtraction that may wrap;
* guest memory (`vm::g_sudo_addr`) becomes a function `Nat → Nat` giving
  the 8-byte word at a byte address;
* host surfaces are identified by numeric ids; the mutable descriptor
  state of every surface lives in a heap `Nat → render_target_descriptor`;
* the backend `Traits` template parameter becomes a structure of
  functions, and backend side effects are recorded as a trace of
  `backend_event`s in the order the source issues them.
-/

namespace Rsx

/-- Guest memory window: the 64-bit word stored at a byte address. -/
def guest_mem : Type := Nat → Nat

/-- Truncation to a `u16` storage location. -/
def t16 (x : Nat) : Nat := x % 2 ^ 16

/-- Wrap-around `u32` subtraction (both arguments are `u32` values). -/
def sub32 (x y : Nat) : Nat := (x % 2 ^ 32 + 2 ^ 32 - y % 2 ^ 32) % 2 ^ 32

/-- `rsx::surface_antialiasing` (ordering of the enumerators is all the
source uses; the numeric values mirror the GCM enumeration). -/
inductive surface_antialiasing
  | center_1_sample
  | diagonal_centered_2_samples
  | square_centered_4_samples
  | square_rotated_4_samples
deriving DecidableEq, Repr

/-- Underlying enum value, used only for the `<`/`>` comparisons. -/
def surface_antialiasing.val : surface_antialiasing → Nat
  | .center_1_sample => 0
  | .diagonal_centered_2_samples => 3
  | .square_centered_4_samples => 4
  | .square_rotated_4_samples => 5

/-- `a > b` on `rsx::surface_antialiasing`. -/
def aa_gt (a b : surface_antialiasing) : Bool := b.val < a.val

/-- `surface_store::get_aa_factor_v` (surface_store.h lines 245-255). -/
def get_aa_factor_v (aa : surface_antialiasing) : Nat :=
  match aa with
  | .center_1_sample => 1
  | .diagonal_centered_2_samples => 1
  | _ => 2

/-- `rsx::render_target_descriptor` (surface_store.h lines 72-197).
The five `memory_tag_samples` entries are the fields `s0`..`s4`, each an
`(address, value)` pair.  The geometry delivered by the virtual accessors
`get_surface_width` … and by `Traits::get_surface_info` is carried
directly on the descriptor. -/
structure render_target_descriptor where
  last_use_tag : Nat := 0
  s0 : Nat × Nat := (0, 0)
  s1 : Nat × Nat := (0, 0)
  s2 : Nat × Nat := (0, 0)
  s3 : Nat × Nat := (0, 0)
  s4 : Nat × Nat := (0, 0)
  dirty : Bool := false
  old_contents : Option Nat := none
  read_aa_mode : surface_antialiasing := .center_1_sample
  write_aa_mode : surface_antialiasing := .center_1_sample
  surface_width : Nat := 0
  surface_height : Nat := 0
  native_pitch : Nat := 0
  rsx_pitch : Nat := 0
  bpp : Nat := 0
deriving DecidableEq, Repr

namespace render_target_descriptor

/-- `render_target_descriptor::test` (lines 103-123): every armed sample
must match the current guest-memory word; the loop breaks at the first
entry whose address is 0. -/
def test (mem : guest_mem) (d : render_target_descriptor) : Bool :=
  if d.s0.1 = 0 then true else if d.s0.2 ≠ mem d.s0.1 then false else
  if d.s1.1 = 0 then true else if d.s1.2 ≠ mem d.s1.1 then false else
  if d.s2.1 = 0 then true else if d.s2.2 ≠ mem d.s2.1 then false else
  if d.s3.1 = 0 then true else if d.s3.2 ≠ mem d.s3.1 then false else
  if d.s4.1 = 0 then true else if d.s4.2 ≠ mem d.s4.1 then false else true

/-- `render_target_descriptor::queue_tag` (lines 137-169).  The first
loop writes `address` into entry 0 and zeroes the addresses of entries
1..4; sample values are untouched. -/
def queue_tag (address : Nat) (d : render_target_descriptor) :
    render_target_descriptor :=
  let d := { d with s0 := (address, d.s0.2), s1 := (0, d.s1.2),
                    s2 := (0, d.s2.2), s3 := (0, d.s3.2), s4 := (0, d.s4.2) }
  let pitch := d.native_pitch
  if pitch < 16 then d
  else
    let d := { d with s1 := (address + pitch - 8, d.s1.2) }
    let h := d.surface_height
    if h > 1 then
      let pitch2 := d.rsx_pitch
      let last_row_offset := pitch2 * (h - 1)
      let center_row_offset := pitch2 * (h / 2)
      { d with s2 := (address + last_row_offset, d.s2.2),
               s3 := (address + last_row_offset + pitch - 8, d.s3.2),
               s4 := (address + center_row_offset + pitch / 2, d.s4.2) }
    else d

/-- `render_target_descriptor::sync_tag` (lines 171-180): snapshot the
current guest word into the value of every armed sample, stopping at the
first entry whose address is 0. -/
def sync_tag (mem : guest_mem) (d : render_target_descriptor) :
    render_target_descriptor :=
  if d.s0.1 = 0 then d else
  let d := { d with s0 := (d.s0.1, mem d.s0.1) }
  if d.s1.1 = 0 then d else
  let d := { d with s1 := (d.s1.1, mem d.s1.1) }
  if d.s2.1 = 0 then d else
  let d := { d with s2 := (d.s2.1, mem d.s2.1) }
  if d.s3.1 = 0 then d else
  let d := { d with s3 := (d.s3.1, mem d.s3.1) }
  if d.s4.1 = 0 then d else
  { d with s4 := (d.s4.1, mem d.s4.1) }

/-- `render_target_descriptor::on_write` (lines 182-196). -/
def on_write (mem : guest_mem) (write_tag : Nat)
    (d : render_target_descriptor) : render_target_descriptor :=
  let d := if write_tag ≠ 0 then { d with last_use_tag := write_tag } else d
  let d := d.sync_tag mem
  { d with read_aa_mode := d.write_aa_mode, dirty := false,
           old_contents := none }

end render_target_descriptor

/-! ### Address-indexed maps

`std::unordered_map<u32, surface_storage_type>` is embedded as an
association list from guest address to surface id.  Lookup finds the
first matching key; insertion (`operator[] =`) replaces any existing
entry; erasure removes the entry.  Iteration order of the list models the
(unspecified) iteration order of the hash map. -/

/-- Value stored at a key, if any. -/
def map_find : List (Nat × Nat) → Nat → Option Nat
  | [], _ => none
  | e :: m, a => if e.1 = a then some e.2 else map_find m a

/-- Remove the entry at a key. -/
def map_erase : List (Nat × Nat) → Nat → List (Nat × Nat)
  | [], _ => []
  | e :: m, a => if e.1 = a then map_erase m a else e :: map_erase m a

/-- `m[a] = v`: replace or insert. -/
def map_insert (m : List (Nat × Nat)) (a v : Nat) : List (Nat × Nat) :=
  (a, v) :: map_erase m a

/-! ### `rsx::address_range`

Modelled from the spec: the type itself lives in `rsx_utils.h`, outside
the given sources.  Per the spec (section 3) the store tracks the
min/max guest-address interval of each map, and the overlap query
performs an inclusive interval-overlap test against it.  `none` is the
initial invalid range, which overlaps nothing. -/

/-- `address_range::start_length`. -/
def range_start_length (a len : Nat) : Option (Nat × Nat) := some (a, a + len - 1)

/-- `address_range::start_end`. -/
def range_start_end (a b : Nat) : Option (Nat × Nat) := some (a, b)

/-- `address_range::get_min_max`: envelope of two ranges. -/
def range_get_min_max :
    Option (Nat × Nat) → Option (Nat × Nat) → Option (Nat × Nat)
  | some (a, b), some (c, d) => some (min a c, max b d)
  | some r, none => some r
  | none, r => r

/-- `address_range::overlaps` (inclusive bounds). -/
def range_overlaps : Option (Nat × Nat) → Option (Nat × Nat) → Bool
  | some (a, b), some (c, d) => decide (a ≤ d) && decide (c ≤ b)
  | _, _ => false

/-! ### Backend events and traits -/

/-- A backend (`Traits`) call, recorded in issue order. -/
inductive backend_event
  | notify_surface_invalidated (id : Nat)
  | notify_surface_persist (id : Nat)
  | invalidate_surface_contents (id : Nat) (src : Option Nat) (address pitch : Nat)
  | prepare_rtt_for_drawing (id : Nat)
  | prepare_rtt_for_sampling (id : Nat)
  | prepare_ds_for_drawing (id : Nat)
  | prepare_ds_for_sampling (id : Nat)
  | create_new_surface (id : Nat) (src : Option Nat)
  | rebuilt_memory_tree
  | marked_dirty (id : Nat)
  | surface_on_write (id : Nat)
deriving DecidableEq, Repr

/-- The backend capability set the store template is parameterized over.
Color and depth formats are carried as their numeric enum values. -/
structure surface_store_traits where
  rtt_has_format_width_height :
    render_target_descriptor → Nat → Nat → Nat → Bool → Bool
  ds_has_format_width_height :
    render_target_descriptor → Nat → Nat → Nat → Bool → Bool
  surface_is_pitch_compatible : render_target_descriptor → Nat → Bool
  pitch_compatible : render_target_descriptor → Nat → Nat → Bool
  create_new_rtt : Nat → Nat → Nat → Nat → Nat → render_target_descriptor
  create_new_ds : Nat → Nat → Nat → Nat → Nat → render_target_descriptor

/-! ### The store state -/

/-- One record of `surface_hierachy_info::memory_overlap_t`. -/
structure memory_overlap_t where
  _ref : Nat
  memory_address : Nat
  x : Nat
  y : Nat
  w : Nat
  h : Nat
deriving DecidableEq, Repr

/-- `rsx::surface_hierachy_info`. -/
structure surface_hierachy_info where
  memory_address : Nat := 0
  memory_range : Nat := 0
  memory_contents : Nat := 0
  overlapping_set : List memory_overlap_t := []
deriving DecidableEq, Repr

/-- `rsx::surface_store` state.  `heap` gives each surface id its
descriptor; `next_id` numbers surfaces created by `create_new_surface`;
`shared_tag_counter` models the global `rsx::get_shared_tag()` counter. -/
structure surface_store where
  m_render_targets_storage : List (Nat × Nat) := []
  m_depth_stencil_storage : List (Nat × Nat) := []
  m_render_targets_memory_range : Option (Nat × Nat) := none
  m_depth_stencil_memory_range : Option (Nat × Nat) := none
  m_bound_render_targets : Fin 4 → Nat × Option Nat := fun _ => (0, none)
  m_bound_depth_stencil : Nat × Option Nat := (0, none)
  invalidated_resources : List Nat := []
  m_memory_tree : List surface_hierachy_info := []
  cache_tag : Nat := 0
  write_tag : Nat := 0
  memory_tag : Nat := 0
  heap : Nat → render_target_descriptor := fun _ => {}
  next_id : Nat := 1
  shared_tag_counter : Nat := 0

/-! ### The bind engine -/

/-- Which branch a `bind_address_as_*` call took (derived information,
used only to state theorems). -/
inductive bind_branch
  | matched
  | reused
  | created
deriving DecidableEq, Repr

/-- Result of a `bind_address_as_*` call: the returned handle, the store
after the call, the backend calls in issue order, the branch taken, and
the `convert_surface` local. -/
structure bind_result where
  handle : Nat
  store : surface_store
  trace : List backend_event
  branch : bind_branch
  convert : Option Nat

/-- Split a list at the first element satisfying `p`:
`some (before, x, after)` or `none`. -/
def split_first (p : Nat → Bool) : List Nat → Option (List Nat × Nat × List Nat)
  | [] => none
  | x :: xs =>
    if p x then some ([], x, xs)
    else match split_first p xs with
      | none => none
      | some (pre, y, post) => some (x :: pre, y, post)

/-- Continuation of `bind_address_as_render_targets` after the own-map
check failed to return (surface_store.h lines 421-469): range update,
bit-source selection, invalidated-pool scan, install. -/
def bind_rtt_slow (tr : surface_store_traits) (s : surface_store)
    (address color_format : Nat) (antialias : surface_antialiasing)
    (width height pitch : Nat) (old convert : Option Nat)
    (ev : List backend_event) : bind_result :=
  let aa_factor_v := get_aa_factor_v antialias
  let range := range_start_length address (pitch * height * aa_factor_v)
  let s := { s with m_render_targets_memory_range :=
      range_get_min_max range s.m_render_targets_memory_range }
  let contents_to_copy := match old with | some o => some o | none => convert
  match split_first
      (fun id => tr.rtt_has_format_width_height (s.heap id) color_format width height true)
      s.invalidated_resources with
  | some (pre, x, post) =>
    let pool := match old with
      | some o => pre ++ o :: post
      | none => pre ++ post
    let ev2 := match old with
      | some o => [backend_event.notify_surface_invalidated o]
      | none => []
    let store := { s with
      invalidated_resources := pool,
      m_render_targets_storage := map_insert s.m_render_targets_storage address x }
    let tail := [backend_event.invalidate_surface_contents x contents_to_copy address pitch,
      backend_event.prepare_rtt_for_drawing x]
    { handle := x, store := store, trace := ev ++ (ev2 ++ tail),
      branch := .reused, convert := convert }
  | none =>
    let pool := match old with
      | some o => s.invalidated_resources ++ [o]
      | none => s.invalidated_resources
    let ev2 := match old with
      | some o => [backend_event.notify_surface_invalidated o]
      | none => []
    let id := s.next_id
    let store := { s with
      invalidated_resources := pool,
      m_render_targets_storage := map_insert s.m_render_targets_storage address id,
      heap := Function.update s.heap id
        (tr.create_new_rtt address color_format width height pitch),
      next_id := id + 1 }
    { handle := id, store := store,
      trace := ev ++ (ev2 ++ [backend_event.create_new_surface id contents_to_copy]),
      branch := .created, convert := convert }

/-- The own-map check of `bind_address_as_render_targets`
(surface_store.h lines 401-419) followed by the slow path: on a
format/size match the existing surface is prepared and returned (note
the early return skips the range update); otherwise it is remembered as
`old_surface`, erased, and the slow path runs. -/
def bind_rtt_own (tr : surface_store_traits) (s : surface_store)
    (address color_format : Nat) (antialias : surface_antialiasing)
    (width height pitch : Nat) (convert : Option Nat)
    (ev1 : List backend_event) : bind_result :=
  match map_find s.m_render_targets_storage address with
  | some rid =>
    if tr.rtt_has_format_width_height (s.heap rid) color_format width height false then
      let ev2 := if tr.surface_is_pitch_compatible (s.heap rid) pitch then
          [backend_event.notify_surface_persist rid]
        else
          [backend_event.invalidate_surface_contents rid none address pitch]
      { handle := rid, store := s,
        trace := ev1 ++ (ev2 ++ [backend_event.prepare_rtt_for_drawing rid]),
        branch := .matched, convert := convert }
    else
      bind_rtt_slow tr
        { s with m_render_targets_storage :=
            map_erase s.m_render_targets_storage address }
        address color_format antialias width height pitch (some rid) convert ev1
  | none =>
    bind_rtt_slow tr s address color_format antialias width height pitch
      none convert ev1

/-- `surface_store::bind_address_as_render_targets`
(surface_store.h lines 374-470): evict any depth surface aliased at the
address, then run the own-map check and slow path. -/
def bind_address_as_render_targets (tr : surface_store_traits)
    (s : surface_store) (address color_format : Nat)
    (antialias : surface_antialiasing) (width height pitch : Nat) :
    bind_result :=
  match map_find s.m_depth_stencil_storage address with
  | some did =>
    bind_rtt_own tr
      { s with
          m_depth_stencil_storage := map_erase s.m_depth_stencil_storage address,
          invalidated_resources := s.invalidated_resources ++ [did] }
      address color_format antialias width height pitch (some did)
      [backend_event.notify_surface_invalidated did]
  | none =>
    bind_rtt_own tr s address color_format antialias width height pitch
      none []

/-- Continuation of `bind_address_as_depth_stencil` after the own-map
check failed to return (surface_store.h lines 517-564).  On the reuse
branch the backend calls are issued in the opposite order to the color
path: `prepare_ds_for_drawing` first, `invalidate_surface_contents`
second. -/
def bind_ds_slow (tr : surface_store_traits) (s : surface_store)
    (address depth_format : Nat) (antialias : surface_antialiasing)
    (width height pitch : Nat) (old convert : Option Nat)
    (ev : List backend_event) : bind_result :=
  let aa_factor_v := get_aa_factor_v antialias
  let range := range_start_length address (pitch * height * aa_factor_v)
  let s := { s with m_depth_stencil_memory_range :=
      range_get_min_max range s.m_depth_stencil_memory_range }
  let contents_to_copy := match old with | some o => some o | none => convert
  match split_first
      (fun id => tr.ds_has_format_width_height (s.heap id) depth_format width height true)
      s.invalidated_resources with
  | some (pre, x, post) =>
    let pool := match old with
      | some o => pre ++ o :: post
      | none => pre ++ post
    let ev2 := match old with
      | some o => [backend_event.notify_surface_invalidated o]
      | none => []
    let store := { s with
      invalidated_resources := pool,
      m_depth_stencil_storage := map_insert s.m_depth_stencil_storage address x }
    let tail := [backend_event.prepare_ds_for_drawing x,
      backend_event.invalidate_surface_contents x contents_to_copy address pitch]
    { handle := x, store := store, trace := ev ++ (ev2 ++ tail),
      branch := .reused, convert := convert }
  | none =>
    let pool := match old with
      | some o => s.invalidated_resources ++ [o]
      | none => s.invalidated_resources
    let ev2 := match old with
      | some o => [backend_event.notify_surface_invalidated o]
      | none => []
    let id := s.next_id
    let store := { s with
      invalidated_resources := pool,
      m_depth_stencil_storage := map_insert s.m_depth_stencil_storage address id,
      heap := Function.update s.heap id
        (tr.create_new_ds address depth_format width height pitch),
      next_id := id + 1 }
    { handle := id, store := store,
      trace := ev ++ (ev2 ++ [backend_event.create_new_surface id contents_to_copy]),
      branch := .created, convert := convert }

/-- The own-map check of `bind_address_as_depth_stencil`
(surface_store.h lines 497-515) followed by the slow path. -/
def bind_ds_own (tr : surface_store_traits) (s : surface_store)
    (address depth_format : Nat) (antialias : surface_antialiasing)
    (width height pitch : Nat) (convert : Option Nat)
    (ev1 : List backend_event) : bind_result :=
  match map_find s.m_depth_stencil_storage address with
  | some did =>
    if tr.ds_has_format_width_height (s.heap did) depth_format width height false then
      let ev2 := if tr.surface_is_pitch_compatible (s.heap did) pitch then
          [backend_event.notify_surface_persist did]
        else
          [backend_event.invalidate_surface_contents did none address pitch]
      { handle := did, store := s,
        trace := ev1 ++ (ev2 ++ [backend_event.prepare_ds_for_drawing did]),
        branch := .matched, convert := convert }
    else
      bind_ds_slow tr
        { s with m_depth_stencil_storage :=
            map_erase s.m_depth_stencil_storage address }
        address depth_format antialias width height pitch (some did) convert ev1
  | none =>
    bind_ds_slow tr s address depth_format antialias width height pitch
      none convert ev1

/-- `surface_store::bind_address_as_depth_stencil`
(surface_store.h lines 472-565): evict any color surface aliased at the
address, then run the own-map check and slow path. -/
def bind_address_as_depth_stencil (tr : surface_store_traits)
    (s : surface_store) (address depth_format : Nat)
    (antialias : surface_antialiasing) (width height pitch : Nat) :
    bind_result :=
  match map_find s.m_render_targets_storage address with
  | some rid =>
    bind_ds_own tr
      { s with
          m_render_targets_storage := map_erase s.m_render_targets_storage address,
          invalidated_resources := s.invalidated_resources ++ [rid] }
      address depth_format antialias width height pitch (some rid)
      [backend_event.notify_surface_invalidated rid]
  | none =>
    bind_ds_own tr s address depth_format antialias width height pitch
      none []

/-! ### `prepare_render_target` -/

/-- `rsx::get_shared_tag()`: bump the global counter and stamp
`cache_tag` with the new value. -/
def bump_cache_tag (s : surface_store) : surface_store :=
  { s with shared_tag_counter := s.shared_tag_counter + 1,
           cache_tag := s.shared_tag_counter + 1 }

/-- One iteration of the color bind loop of `prepare_render_target`
(surface_store.h lines 604-606): bind the address for this index and
record the bound slot. -/
def bind_slot (tr : surface_store_traits) (color_format : Nat)
    (antialias : surface_antialiasing) (clip_width clip_height : Nat)
    (surface_addresses : Fin 4 → Nat) (surface_pitch : Fin 4 → Nat)
    (i : Fin 4) (s : surface_store) : surface_store × List backend_event :=
  let r := bind_address_as_render_targets tr s (surface_addresses i)
    color_format antialias clip_width clip_height (surface_pitch i)
  let slots := Function.update r.store.m_bound_render_targets i
    (surface_addresses i, some r.handle)
  ({ r.store with m_bound_render_targets := slots }, r.trace)

/-- The per-index color bind loop of `prepare_render_target`
(surface_store.h lines 598-607): for each index from
`utility::get_rtt_indexes` with a nonzero address, bind and record the
bound slot. -/
def bind_loop (tr : surface_store_traits) (color_format : Nat)
    (antialias : surface_antialiasing) (clip_width clip_height : Nat)
    (surface_addresses : Fin 4 → Nat) (surface_pitch : Fin 4 → Nat) :
    List (Fin 4) → surface_store → surface_store × List backend_event
  | [], s => (s, [])
  | i :: rest, s =>
    if surface_addresses i = 0 then
      bind_loop tr color_format antialias clip_width clip_height
        surface_addresses surface_pitch rest s
    else
      let st := bind_slot tr color_format antialias clip_width clip_height
        surface_addresses surface_pitch i s
      let rec_rest := bind_loop tr color_format antialias clip_width clip_height
        surface_addresses surface_pitch rest st.1
      (rec_rest.1, st.2 ++ rec_rest.2)

/-- `surface_store::prepare_render_target` (surface_store.h lines
571-621).  `rtt_indexes` is the list returned by the format registry's
`utility::get_rtt_indexes` for the requested MRT layout (modelled from
the spec: that registry lives outside the given sources), passed here as
an argument. -/
def prepare_render_target (tr : surface_store_traits) (s : surface_store)
    (color_format depth_format clip_width clip_height : Nat)
    (rtt_indexes : List (Fin 4)) (antialias : surface_antialiasing)
    (surface_addresses : Fin 4 → Nat) (address_z : Nat)
    (surface_pitch : Fin 4 → Nat) (zeta_pitch : Nat) :
    surface_store × List backend_event :=
  let s := bump_cache_tag s
  let s := { s with m_memory_tree := [] }
  -- Make previous RTTs sampleable
  let ev_sample := (List.finRange 4).filterMap fun i =>
    ((s.m_bound_render_targets i).2).map backend_event.prepare_rtt_for_sampling
  let s := { s with m_bound_render_targets := fun _ => (0, none) }
  -- Create/Reuse requested rtts
  let step := bind_loop tr color_format antialias clip_width clip_height
    surface_addresses surface_pitch rtt_indexes s
  let s := step.1
  -- Same for depth buffer
  let ev_ds_sample := match (s.m_bound_depth_stencil).2 with
    | some h => [backend_event.prepare_ds_for_sampling h]
    | none => []
  let s := { s with m_bound_depth_stencil := (0, none) }
  if address_z = 0 then (s, ev_sample ++ step.2 ++ ev_ds_sample)
  else
    let r := bind_address_as_depth_stencil tr s address_z depth_format
      antialias clip_width clip_height zeta_pitch
    ({ r.store with m_bound_depth_stencil := (address_z, some r.handle) },
     ev_sample ++ step.2 ++ ev_ds_sample ++ r.trace)

/-! ### Invalidation -/

/-- `surface_store::address_is_bound` (surface_store.h lines 877-890). -/
def address_is_bound (s : surface_store) (address : Nat) : Bool :=
  ((List.finRange 4).any fun i =>
    decide ((s.m_bound_render_targets i).1 = address)) ||
  decide ((s.m_bound_depth_stencil).1 = address)

/-- `surface_store::invalidate_surface_address` (surface_store.h lines
841-875): refuse (and only log) when the address is currently bound;
otherwise move the storage to `invalidated_resources`, erase it from its
map and bump `cache_tag`. -/
def invalidate_surface_address (s : surface_store) (addr : Nat)
    (depth : Bool) : surface_store :=
  if address_is_bound s addr then s
  else if depth = false then
    match map_find s.m_render_targets_storage addr with
    | some rid =>
      bump_cache_tag { s with
        m_render_targets_storage := map_erase s.m_render_targets_storage addr,
        invalidated_resources := s.invalidated_resources ++ [rid] }
    | none => s
  else
    match map_find s.m_depth_stencil_storage addr with
    | some did =>
      bump_cache_tag { s with
        m_depth_stencil_storage := map_erase s.m_depth_stencil_storage addr,
        invalidated_resources := s.invalidated_resources ++ [did] }
    | none => s

/-! ### Memory-tree builder -/

/-- The `process_entry` lambda of `generate_render_target_memory_tree`
(surface_store.h lines 288-325): `info_pitch` and `info_bpp` are the
bound surface's `rsx_pitch` and `bpp`; the record is emitted only when
both fit tests pass. -/
def tree_process_entry (heap : Nat → render_target_descriptor)
    (info_pitch info_bpp memory_address memory_end : Nat) (e : Nat × Nat) :
    Option memory_overlap_t :=
  if e.1 ≤ memory_address then none
  else if memory_end ≤ e.1 then none
  else
    let info2 := heap e.2
    let offset := e.1 - memory_address
    let offset_y := offset / info_pitch
    let offset_x := (offset % info_pitch) / info_bpp
    let pitch2 := info2.bpp * info2.surface_width
    let fits_w : Bool := decide ((offset % info_pitch) + pitch2 ≤ info_pitch)
    let fits_h : Bool :=
      decide ((offset_y + info2.surface_height) * info_pitch ≤ memory_end - memory_address)
    if fits_w && fits_h then
      some { _ref := e.2, memory_address := e.1, x := offset_x, y := offset_y,
             w := info2.surface_width, h := info2.surface_height }
    else none

/-- The `process_block` lambda (surface_store.h lines 327-352): walk
both maps, collect fitting records, and keep the block only when the
overlapping set is nonempty. -/
def tree_process_block (s : surface_store) (memory_address sid : Nat) :
    Option surface_hierachy_info :=
  let info := s.heap sid
  let memory_end := memory_address + info.rsx_pitch * info.surface_height
  let set := (s.m_render_targets_storage ++ s.m_depth_stencil_storage).filterMap
    (tree_process_entry s.heap info.rsx_pitch info.bpp memory_address memory_end)
  if set.isEmpty then none
  else some { memory_address := memory_address,
              memory_range := memory_end - memory_address,
              memory_contents := sid, overlapping_set := set }

/-- The blocks appended by one `generate_render_target_memory_tree` call
(surface_store.h lines 354-365): one block per bound color slot with a
nonzero address, then one for the bound depth surface. -/
def generate_blocks (s : surface_store) : List surface_hierachy_info :=
  ((List.finRange 4).filterMap fun i =>
    let b := s.m_bound_render_targets i
    if b.1 = 0 then none else tree_process_block s b.1 (b.2.getD 0)) ++
  (let b := s.m_bound_depth_stencil
   if b.1 = 0 then [] else (tree_process_block s b.1 (b.2.getD 0)).toList)

/-- `surface_store::generate_render_target_memory_tree`: push the new
blocks onto `m_memory_tree` (the source appends without clearing; the
tree is cleared in `prepare_render_target`). -/
def generate_render_target_memory_tree (s : surface_store) : surface_store :=
  { s with m_memory_tree := s.m_memory_tree ++ generate_blocks s }

/-! ### Overlap engine -/

/-- `rsx::surface_overlap_info_t` (surface_store.h lines 27-41). -/
structure surface_overlap_info where
  surface : Nat := 0
  base_address : Nat := 0
  is_depth : Bool := false
  is_clipped : Bool := false
  src_x : Nat := 0
  src_y : Nat := 0
  dst_x : Nat := 0
  dst_y : Nat := 0
  width : Nat := 0
  height : Nat := 0
deriving DecidableEq, Repr

/-- Overlap record for a candidate starting before the texture
(`this_address < texaddr`, surface_store.h lines 933-946).  `u16` stores
are truncated with `t16`; the `u32` subtractions that can wrap use
`sub32`. -/
def overlap_info_before (texaddr required_width required_height
    required_pitch this_address sid : Nat) (d : render_target_descriptor)
    (is_depth : Bool) (scale_x scale_y : Nat) : surface_overlap_info :=
  let int_required_width := required_width / scale_x
  let int_required_height := required_height / scale_y
  let offset := texaddr - this_address
  let src_y := t16 ((offset / required_pitch) / scale_y)
  let src_x := t16 (((offset % required_pitch) / d.bpp) / scale_x)
  let width := t16 (min int_required_width (sub32 d.surface_width src_x))
  let height := t16 (min int_required_height (sub32 d.surface_height src_y))
  { surface := sid, base_address := this_address, is_depth := is_depth,
    is_clipped := decide (width < int_required_width) || decide (height < int_required_height),
    src_x := src_x, src_y := src_y, dst_x := 0, dst_y := 0,
    width := width, height := height }

/-- Overlap record for a candidate starting at or after the texture
(`this_address ≥ texaddr`, surface_store.h lines 947-962): the
intermediate width/height are clamped against the requested extent and
divided by the AA scale factors afterwards. -/
def overlap_info_after (texaddr required_width required_height
    required_pitch this_address sid : Nat) (d : render_target_descriptor)
    (is_depth : Bool) (scale_x scale_y : Nat) : surface_overlap_info :=
  let int_surface_width := d.surface_width * scale_x
  let int_surface_height := d.surface_height * scale_y
  let offset := this_address - texaddr
  let dst_y := t16 (offset / required_pitch)
  let dst_x := t16 ((offset % required_pitch) / d.bpp)
  let width := t16 (min int_surface_width (sub32 required_width dst_x))
  let height := t16 (min int_surface_height (sub32 required_height dst_y))
  { surface := sid, base_address := this_address, is_depth := is_depth,
    is_clipped := decide (width < required_width) || decide (height < required_height),
    src_x := 0, src_y := 0, dst_x := dst_x, dst_y := dst_y,
    width := width / scale_x, height := height / scale_y }

/-- One iteration of the `process_list_function` lambda of
`get_merged_texture_memory_region` (surface_store.h lines 899-966):
`none` when the candidate is filtered out, `inr (address, is_depth)`
when it fails `test()` and joins the dirty list, `inl info` when an
overlap record is emitted. -/
def process_candidate (tr : surface_store_traits) (mem : guest_mem)
    (heap : Nat → render_target_descriptor)
    (texaddr required_width required_height required_pitch limit : Nat)
    (is_depth : Bool) (e : Nat × Nat) :
    Option (surface_overlap_info ⊕ (Nat × Bool)) :=
  let this_address := e.1
  if limit ≤ this_address then none
  else
    let d := heap e.2
    let pitch := d.rsx_pitch
    if tr.pitch_compatible d required_pitch required_height = false then none
    else
      let scale_x : Nat := if aa_gt d.read_aa_mode .center_1_sample then 2 else 1
      let scale_y : Nat := if aa_gt d.read_aa_mode .diagonal_centered_2_samples then 2 else 1
      let texture_size := pitch * d.surface_height * scale_y
      if this_address + texture_size ≤ texaddr then none
      else if d.test mem = false then some (Sum.inr (this_address, is_depth))
      else if this_address < texaddr then
        some (Sum.inl (overlap_info_before texaddr required_width required_height
          required_pitch this_address e.2 d is_depth scale_x scale_y))
      else
        some (Sum.inl (overlap_info_after texaddr required_width required_height
          required_pitch this_address e.2 d is_depth scale_x scale_y))

/-- The `process_list_function` lambda applied to one whole map:
accumulate emitted records and dirty addresses in iteration order. -/
def process_list (tr : surface_store_traits) (mem : guest_mem)
    (heap : Nat → render_target_descriptor)
    (texaddr required_width required_height required_pitch limit : Nat)
    (is_depth : Bool) (data : List (Nat × Nat)) :
    List surface_overlap_info × List (Nat × Bool) :=
  data.foldl
    (fun acc e =>
      match process_candidate tr mem heap texaddr required_width
          required_height required_pitch limit is_depth e with
      | none => acc
      | some (Sum.inl i) => (acc.1 ++ [i], acc.2)
      | some (Sum.inr p) => (acc.1, acc.2 ++ [p]))
    ([], [])

/-- The comparator lambda passed to `std::sort`
(surface_store.h lines 992-1003), a strict weak order. -/
def overlap_lt (heap : Nat → render_target_descriptor)
    (a b : surface_overlap_info) : Bool :=
  if (heap a.surface).last_use_tag = (heap b.surface).last_use_tag then
    decide (a.width * a.height < b.width * b.height)
  else
    decide ((heap a.surface).last_use_tag < (heap b.surface).last_use_tag)

/-- The total preorder `std::sort` leaves the vector sorted by:
`a` may stay before `b` iff the comparator does not order `b` before
`a`. -/
def overlap_le (heap : Nat → render_target_descriptor)
    (a b : surface_overlap_info) : Prop :=
  overlap_lt heap b a = false

instance (heap : Nat → render_target_descriptor) :
    DecidableRel (overlap_le heap) := fun _ _ => instDecidableEqBool _ _

/-- `surface_store::get_merged_texture_memory_region`
(surface_store.h lines 892-1007): range-gate each map, collect overlap
records and the dirty list, invalidate every dirty address, and sort the
result when it has at least two entries.  `std::sort` with the
comparator `overlap_lt` is modelled as a comparison sort over the
induced total preorder `overlap_le`. -/
def get_merged_texture_memory_region (tr : surface_store_traits)
    (mem : guest_mem) (s : surface_store)
    (texaddr required_width required_height required_pitch : Nat) :
    List surface_overlap_info × surface_store :=
  let limit := (texaddr + required_pitch * required_height) % 2 ^ 32
  let test_range := range_start_end texaddr (sub32 limit 1)
  let cd1 := if range_overlaps test_range s.m_render_targets_memory_range then
      process_list tr mem s.heap texaddr required_width required_height
        required_pitch limit false s.m_render_targets_storage
    else ([], [])
  let cd2 := if range_overlaps test_range s.m_depth_stencil_memory_range then
      process_list tr mem s.heap texaddr required_width required_height
        required_pitch limit true s.m_depth_stencil_storage
    else ([], [])
  let result := cd1.1 ++ cd2.1
  let dirty := cd1.2 ++ cd2.2
  let s2 := dirty.foldl (fun st p => invalidate_surface_address st p.1 p.2) s
  let result2 := if 1 < result.length then
      List.insertionSort (overlap_le s.heap) result
    else result
  (result2, s2)

/-! ### Store-level `on_write` -/

/-- Set `dirty := true` on every surface id in the list. -/
def mark_dirty (heap : Nat → render_target_descriptor) :
    List Nat → Nat → render_target_descriptor
  | [], id => heap id
  | x :: xs, id => mark_dirty (Function.update heap x { heap x with dirty := true }) xs id

/-- One iteration of the bound-color refresh loop of
`surface_store::on_write` (surface_store.h lines 1047-1058). -/
def on_write_bound_step (mem : guest_mem) (address : Nat)
    (acc : surface_store × List backend_event) (i : Fin 4) :
    surface_store × List backend_event :=
  let b := acc.1.m_bound_render_targets i
  if address ≠ 0 ∧ b.1 ≠ address then acc
  else match b.2 with
    | some h =>
      let heap2 := Function.update acc.1.heap h
        ((acc.1.heap h).on_write mem acc.1.write_tag)
      ({ acc.1 with heap := heap2 },
       acc.2 ++ [backend_event.surface_on_write h])
    | none => acc

/-- The bound-depth refresh at the end of `surface_store::on_write`
(surface_store.h lines 1060-1066). -/
def on_write_depth_step (mem : guest_mem) (address : Nat)
    (acc : surface_store × List backend_event) :
    surface_store × List backend_event :=
  match (acc.1.m_bound_depth_stencil).2 with
  | some h =>
    if address = 0 ∨ (acc.1.m_bound_depth_stencil).1 = address then
      let heap2 := Function.update acc.1.heap h
        ((acc.1.heap h).on_write mem acc.1.write_tag)
      ({ acc.1 with heap := heap2 },
       acc.2 ++ [backend_event.surface_on_write h])
    else acc
  | none => acc

/-- The non-early-return path of `surface_store::on_write`
(surface_store.h lines 1018-1066): stamp `write_tag`, lazily rebuild the
memory tree, mark overlapped surfaces dirty, and refresh the bound
surfaces. -/
def on_write_slow (mem : guest_mem) (s : surface_store) (address : Nat) :
    surface_store × List backend_event :=
  let s := if address = 0 then { s with write_tag := s.cache_tag } else s
  let step1 : surface_store × List backend_event :=
    if s.memory_tag ≠ s.cache_tag then
      ({ generate_render_target_memory_tree s with memory_tag := s.cache_tag },
       [backend_event.rebuilt_memory_tree])
    else (s, [])
  let s := step1.1
  -- GPU-side contents changed: mark overlapped surfaces dirty
  let to_mark := s.m_memory_tree.foldl
    (fun acc e =>
      if address ≠ 0 ∧ e.memory_address ≠ address then acc
      else acc ++ e.overlapping_set.map memory_overlap_t._ref) []
  let s := { s with heap := mark_dirty s.heap to_mark }
  let ev_mark := to_mark.map backend_event.marked_dirty
  -- Refresh bound color surfaces
  let step2 := (List.finRange 4).foldl (on_write_bound_step mem address)
    (s, step1.2 ++ ev_mark)
  -- Refresh the bound depth surface
  on_write_depth_step mem address step2

/-- `surface_store::on_write` (surface_store.h lines 1009-1067): with
address 0 and `write_tag` already equal to `cache_tag`, return with no
action taken. -/
def surface_store.on_write (mem : guest_mem) (s : surface_store)
    (address : Nat) : surface_store × List backend_event :=
  if address = 0 ∧ s.write_tag = s.cache_tag then (s, [])
  else on_write_slow mem s address


/-! ### Concrete backends and stores used by the closed theorems -/

/-- A backend whose predicates never match and whose created surfaces
are blank: enough for exercising filter and creation paths. -/
def tr_plain : surface_store_traits where
  rtt_has_format_width_height := fun _ _ _ _ _ => false
  ds_has_format_width_height := fun _ _ _ _ _ => false
  surface_is_pitch_compatible := fun _ _ => true
  pitch_compatible := fun _ _ _ => true
  create_new_rtt := fun _ _ _ _ _ => {}
  create_new_ds := fun _ _ _ _ _ => {}


/-- True iff an event satisfying `p` occurs strictly before one
satisfying `q` in the trace. -/
def event_before (p q : backend_event → Bool) : List backend_event → Bool
  | [] => false
  | e :: rest => (p e && rest.any q) || event_before p q rest

/-- Recognizer for `prepare_rtt_for_drawing` events. -/
def is_prepare_rtt_for_drawing : backend_event → Bool
  | .prepare_rtt_for_drawing _ => true
  | _ => false

/-- Recognizer for `prepare_ds_for_drawing` events. -/
def is_prepare_ds_for_drawing : backend_event → Bool
  | .prepare_ds_for_drawing _ => true
  | _ => false

/-- Recognizer for `invalidate_surface_contents` events. -/
def is_invalidate_surface_contents : backend_event → Bool
  | .invalidate_surface_contents _ _ _ _ => true
  | _ => false

/-- A backend whose color format/size check always matches: forces the
invalidated-pool reuse branch whenever the pool is nonempty. -/
def tr_color_reuse : surface_store_traits :=
  { tr_plain with rtt_has_format_width_height := fun _ _ _ _ _ => true }

/-- A backend whose depth format/size check always matches. -/
def tr_ds_reuse : surface_store_traits :=
  { tr_plain with ds_has_format_width_height := fun _ _ _ _ _ => true }

/-- A store whose invalidated pool holds the single surface id 7. -/
def s_pool7 : surface_store := { invalidated_resources := [7] }

/-- Invariant 1 of the spec: no guest address is present in both the
color and the depth map. -/
def maps_disjoint (s : surface_store) : Prop :=
  ∀ a : Nat, map_find s.m_render_targets_storage a = none ∨
    map_find s.m_depth_stencil_storage a = none

/-- A store holding one depth surface (id 3) at address 4096. -/
def s_depth3 : surface_store := { m_depth_stencil_storage := [(4096, 3)] }

/-- The ordering claimed for the overlap-query result: strictly older
`last_use_tag` first, ties broken by area (width times height),
non-decreasing. -/
def c5_rel (heap : Nat → render_target_descriptor)
    (a b : surface_overlap_info) : Prop :=
  (heap a.surface).last_use_tag < (heap b.surface).last_use_tag ∨
  ((heap a.surface).last_use_tag = (heap b.surface).last_use_tag ∧
    a.width * a.height ≤ b.width * b.height)

/-- Guest memory that reads 0 everywhere. -/
def mem_zero : guest_mem := fun _ => 0

/-- The S5 surface: 64 by 64, pitch 256, 4 bytes per pixel, 1-sample AA,
with no armed memory-tag samples (so `test()` passes). -/
def d_s5 : render_target_descriptor :=
  { surface_width := 64, surface_height := 64, native_pitch := 256,
    rsx_pitch := 256, bpp := 4 }

/-- The S5 store: a single color surface (id 1) at address 0x01000400
with the matching tracked range. -/
def store_s5 : surface_store :=
  { m_render_targets_storage := [(16778240, 1)],
    m_render_targets_memory_range := some (16778240, 16794623),
    heap := fun _ => d_s5 }

/-- The S1 surface after the guest write: 640 by 480, pitch 2560, with
sample 0 armed at the base address and a stored value (1) that no longer
matches guest memory. -/
def d_s1 : render_target_descriptor :=
  { surface_width := 640, surface_height := 480, native_pitch := 2560,
    rsx_pitch := 2560, bpp := 4, s0 := (16777216, 1) }

/-- The S1 store: color surface id 1 at 0x01000000, currently bound in
slot 0. -/
def store_s1_bound : surface_store :=
  { m_render_targets_storage := [(16777216, 1)],
    m_render_targets_memory_range := some (16777216, 18006015),
    m_bound_render_targets := fun i => if i = 0 then (16777216, some 1) else (0, none),
    heap := fun _ => d_s1 }

/-- The per-record conditions claimed for the memory tree: each record
lies strictly after the block base, fits a row of the bound surface
horizontally, and stays inside the bound surface's footprint
vertically. -/
def block_ok (heap : Nat → render_target_descriptor)
    (b : surface_hierachy_info) : Prop :=
  ∀ r ∈ b.overlapping_set,
    b.memory_address < r.memory_address ∧
    (r.memory_address - b.memory_address) % (heap b.memory_contents).rsx_pitch +
      r.w * (heap r._ref).bpp ≤ (heap b.memory_contents).rsx_pitch ∧
    (r.y + r.h) * (heap b.memory_contents).rsx_pitch ≤ b.memory_range

/-- The S6 bound surface: 1024 by 1024, pitch 4096. -/
def d_s6_big : render_target_descriptor :=
  { surface_width := 1024, surface_height := 1024, native_pitch := 4096,
    rsx_pitch := 4096, bpp := 4 }

/-- The S6 contained surface: 16 by 16, pitch 64. -/
def d_s6_small : render_target_descriptor :=
  { surface_width := 16, surface_height := 16, native_pitch := 64,
    rsx_pitch := 64, bpp := 4 }

/-- The S6 store: a large bound color surface at 0x02000000 (id 1) and a
small registered color surface at 0x02004020 (id 2). -/
def store_s6 : surface_store :=
  { m_render_targets_storage := [(33554432, 1), (33570848, 2)],
    m_bound_render_targets := fun i => if i = 0 then (33554432, some 1) else (0, none),
    heap := fun id => if id = 2 then d_s6_small else d_s6_big }

/-- Surface ids in a store are always below `next_id`: holds for every
store built by the operations of this file and keeps freshly created ids
from colliding with stored ones. -/
def store_wf (s : surface_store) : Prop :=
  (∀ a id, map_find s.m_render_targets_storage a = some id → id < s.next_id) ∧
  (∀ a id, map_find s.m_depth_stencil_storage a = some id → id < s.next_id) ∧
  (∀ id, id ∈ s.invalidated_resources → id < s.next_id)

/-- After a color bind at `a`, the installed surface `rid` matches the
strict (non-lenient) format/size check and no depth surface shares the
address: exactly what makes the next bind at `a` a pure state-change. -/
def c6_fact (tr : surface_store_traits) (color_format width height : Nat)
    (s : surface_store) (a rid : Nat) : Prop :=
  map_find s.m_render_targets_storage a = some rid ∧
  tr.rtt_has_format_width_height (s.heap rid) color_format width height false = true ∧
  map_find s.m_depth_stencil_storage a = none

/-- Depth analogue of `c6_fact`. -/
def c6_fact_ds (tr : surface_store_traits) (depth_format width height : Nat)
    (s : surface_store) (a did : Nat) : Prop :=
  map_find s.m_depth_stencil_storage a = some did ∧
  tr.ds_has_format_width_height (s.heap did) depth_format width height false = true ∧
  map_find s.m_render_targets_storage a = none

/-- A backend whose color check accepts exactly under the lenient flag:
pool reuse succeeds but the installed surface then fails the strict
re-check of the next bind. -/
def tr_lenient : surface_store_traits :=
  { tr_plain with rtt_has_format_width_height := fun _ _ _ _ lenient => lenient }

/-- A store whose invalidated pool holds the single surface id 5. -/
def s_pool5 : surface_store := { invalidated_resources := [5] }

/-- Argument vectors for the C6 scenario: color slot 0 at 4096, no
depth. -/
def c6_addrs : Fin 4 → Nat := fun i => if i = 0 then 4096 else 0

/-- Pitches for the C6 scenario. -/
def c6_pitch : Fin 4 → Nat := fun _ => 256

/-- The store after the first C6 `prepare_render_target` call. -/
def c6_s1 : surface_store :=
  (prepare_render_target tr_lenient s_pool5 0 0 64 64 [0] .center_1_sample
    c6_addrs 0 c6_pitch 0).1

/-- The store after the second, identical C6 call. -/
def c6_s2 : surface_store :=
  (prepare_render_target tr_lenient c6_s1 0 0 64 64 [0] .center_1_sample
    c6_addrs 0 c6_pitch 0).1

/-- Post-state of the call-1 color bind loop, relative to its input
store: well-formedness, untouched depth binding, fact preservation,
depth-map monotonicity, untouched slots, and the per-index bound
facts. -/
def c6_loop_post (tr : surface_store_traits)
    (color_format clip_width clip_height : Nat)
    (surface_addresses : Fin 4 → Nat) (idxs : List (Fin 4))
    (s0 s1 : surface_store) : Prop :=
  store_wf s1 ∧
  s1.m_bound_depth_stencil = s0.m_bound_depth_stencil ∧
  (∀ b rid, c6_fact tr color_format clip_width clip_height s0 b rid →
    c6_fact tr color_format clip_width clip_height s1 b rid) ∧
  (∀ a x, map_find s1.m_depth_stencil_storage a = some x →
    map_find s0.m_depth_stencil_storage a = some x) ∧
  (∀ i : Fin 4, (i ∉ idxs ∨ surface_addresses i = 0) →
    s1.m_bound_render_targets i = s0.m_bound_render_targets i) ∧
  (∀ i, i ∈ idxs → surface_addresses i ≠ 0 →
    ∃ rid, c6_fact tr color_format clip_width clip_height s1
      (surface_addresses i) rid ∧
      s1.m_bound_render_targets i = (surface_addresses i, some rid))

/-- The store at the top of `prepare_render_target` after the cache-tag
bump, memory-tree clear and color-slot reset (surface_store.h lines
581-596), before the color bind loop runs. -/
def pre_loop_store (s : surface_store) : surface_store :=
  { { bump_cache_tag s with m_memory_tree := [] } with
      m_bound_render_targets := fun _ => (0, none) }

/-- The store of `prepare_render_target` after the color bind loop and
the depth-slot reset (surface_store.h lines 598-612), before the
optional depth bind. -/
def prep_mid (tr : surface_store_traits) (color_format : Nat)
    (antialias : surface_antialiasing) (clip_width clip_height : Nat)
    (rtt_indexes : List (Fin 4))
    (surface_addresses surface_pitch : Fin 4 → Nat)
    (s : surface_store) : surface_store :=
  { (bind_loop tr color_format antialias clip_width clip_height
      surface_addresses surface_pitch rtt_indexes (pre_loop_store s)).1 with
      m_bound_depth_stencil := (0, none) }

/-- All surface state of `s2` agrees with `s1`: bound color slots, the
bound depth slot, both storage maps, the invalidated pool, the surface
heap and the id counter.  Only cache tags and the memory tree may
differ. -/
def rebind_agrees (s2 s1 : surface_store) : Prop :=
  s2.m_bound_render_targets = s1.m_bound_render_targets ∧
  s2.m_bound_depth_stencil = s1.m_bound_depth_stencil ∧
  s2.m_render_targets_storage = s1.m_render_targets_storage ∧
  s2.m_depth_stencil_storage = s1.m_depth_stencil_storage ∧
  s2.invalidated_resources = s1.invalidated_resources ∧
  s2.heap = s1.heap ∧
  s2.next_id = s1.next_id

/-- What a `prepare_render_target` call guarantees about its result
store: every requested color slot is bound to a surface that passes the
strict format check at its address, every other slot is reset, and the
depth slot mirrors this for `address_z`.  Exactly the state that makes
an identical re-bind take only fast paths. -/
def c6_ready (tr : surface_store_traits)
    (color_format depth_format clip_width clip_height : Nat)
    (surface_addresses : Fin 4 → Nat) (idxs : List (Fin 4))
    (address_z : Nat) (s1 : surface_store) : Prop :=
  (∀ i ∈ idxs, surface_addresses i ≠ 0 → ∃ rid,
    c6_fact tr color_format clip_width clip_height s1
      (surface_addresses i) rid ∧
    s1.m_bound_render_targets i = (surface_addresses i, some rid)) ∧
  (∀ i : Fin 4, (i ∉ idxs ∨ surface_addresses i = 0) →
    s1.m_bound_render_targets i = (0, none)) ∧
  (if address_z = 0 then s1.m_bound_depth_stencil = (0, none)
   else ∃ did, c6_fact_ds tr depth_format clip_width clip_height s1
     address_z did ∧
     s1.m_bound_depth_stencil = (address_z, some did))

/-- A backend whose format/size checks always pass: created surfaces
are honestly reported and the lenient check implies the strict one. -/
def tr_honest : surface_store_traits :=
  { tr_plain with
      rtt_has_format_width_height := fun _ _ _ _ _ => true,
      ds_has_format_width_height := fun _ _ _ _ _ => true }

/-! ## Theorems -/

/-! ### Map lemmas -/

theorem map_find_erase (m : List (Nat × Nat)) (a b : Nat) :
    map_find (map_erase m a) b = if b = a then none else map_find m b := by
  induction m with
  | nil => simp [map_find, map_erase]
  | cons e rest ih =>
    by_cases hea : e.1 = a <;> by_cases heb : e.1 = b <;>
      simp_all [map_find, map_erase]

theorem map_find_insert (m : List (Nat × Nat)) (a v b : Nat) :
    map_find (map_insert m a v) b = if b = a then some v else map_find m b := by
  by_cases h : b = a
  · simp [map_insert, map_find, h, map_find_erase]
  · have h2 : ¬ a = b := fun hab => h hab.symm
    simp [map_insert, map_find, h, h2, map_find_erase]

/-! ### C8: descriptor `on_write` -/

/-- C8. `render_target_descriptor::on_write(tag)` updates `last_use_tag`
to `tag` exactly when `tag` is nonzero, re-snapshots the armed
memory-tag samples from guest memory exactly as `sync_tag` does,
assigns `read_aa_mode := write_aa_mode`, clears `dirty` and
`old_contents` together, and leaves every other descriptor field
unchanged. -/
theorem C8_descriptor_on_write (mem : guest_mem) (tag : Nat)
    (d : render_target_descriptor) :
    (d.on_write mem tag).last_use_tag = (if tag = 0 then d.last_use_tag else tag) ∧
    (d.on_write mem tag).s0 = (d.sync_tag mem).s0 ∧
    (d.on_write mem tag).s1 = (d.sync_tag mem).s1 ∧
    (d.on_write mem tag).s2 = (d.sync_tag mem).s2 ∧
    (d.on_write mem tag).s3 = (d.sync_tag mem).s3 ∧
    (d.on_write mem tag).s4 = (d.sync_tag mem).s4 ∧
    (d.on_write mem tag).read_aa_mode = d.write_aa_mode ∧
    (d.on_write mem tag).dirty = false ∧
    (d.on_write mem tag).old_contents = none ∧
    (d.on_write mem tag).write_aa_mode = d.write_aa_mode ∧
    (d.on_write mem tag).surface_width = d.surface_width ∧
    (d.on_write mem tag).surface_height = d.surface_height ∧
    (d.on_write mem tag).native_pitch = d.native_pitch ∧
    (d.on_write mem tag).rsx_pitch = d.rsx_pitch ∧
    (d.on_write mem tag).bpp = d.bpp := by
  unfold render_target_descriptor.on_write render_target_descriptor.sync_tag
  by_cases h : tag = 0 <;> simp [h] <;> split_ifs <;> simp

/-! ### C9: `queue_tag` boundary behaviour -/

/-- C9. `queue_tag(base)` arms exactly one sample (the base address)
when `native_pitch < 16`; when the surface height is at most 1 it arms
at most the two samples at `base` and `base + native_pitch - 8`; in
both situations every later entry has address 0. -/
theorem C9_queue_tag_boundary (d : render_target_descriptor) (address : Nat) :
    (d.native_pitch < 16 →
      (d.queue_tag address).s0.1 = address ∧
      (d.queue_tag address).s1.1 = 0 ∧
      (d.queue_tag address).s2.1 = 0 ∧
      (d.queue_tag address).s3.1 = 0 ∧
      (d.queue_tag address).s4.1 = 0) ∧
    (d.surface_height ≤ 1 →
      (d.queue_tag address).s0.1 = address ∧
      (d.queue_tag address).s2.1 = 0 ∧
      (d.queue_tag address).s3.1 = 0 ∧
      (d.queue_tag address).s4.1 = 0 ∧
      (16 ≤ d.native_pitch →
        (d.queue_tag address).s1.1 = address + d.native_pitch - 8)) := by
  refine ⟨fun hp => ?_, fun hh => ?_⟩
  · simp [render_target_descriptor.queue_tag, hp]
  · have h2 : ¬ (1 < d.surface_height) := by omega
    by_cases hp : d.native_pitch < 16 <;>
      simp [render_target_descriptor.queue_tag, hp, h2]

/-- Witness for C9 at a concrete descriptor: pitch 8 forces the
single-sample case, height 1 the two-sample case. -/
theorem C9_queue_tag_boundary_witness :
    (({ native_pitch := 8, surface_height := 1 } :
        render_target_descriptor).queue_tag 4096).s0.1 = 4096 ∧
    (({ native_pitch := 8, surface_height := 1 } :
        render_target_descriptor).queue_tag 4096).s1.1 = 0 ∧
    (({ native_pitch := 32, surface_height := 1 } :
        render_target_descriptor).queue_tag 4096).s1.1 = 4096 + 32 - 8 ∧
    (({ native_pitch := 32, surface_height := 1 } :
        render_target_descriptor).queue_tag 4096).s2.1 = 0 := by
  refine ⟨((C9_queue_tag_boundary _ 4096).1 (by decide)).1,
          ((C9_queue_tag_boundary _ 4096).1 (by decide)).2.1,
          ((C9_queue_tag_boundary _ 4096).2 (by decide)).2.2.2.2 (by decide),
          ((C9_queue_tag_boundary _ 4096).2 (by decide)).2.1⟩


/-! ### C1: ordering on the invalidated-pool reuse branch -/

/-- Helper: whenever `bind_rtt_slow` takes the reuse branch, its trace
ends with `invalidate_surface_contents` immediately followed by
`prepare_rtt_for_drawing` on the reused surface. -/
theorem bind_rtt_slow_reuse_trace (tr : surface_store_traits)
    (s : surface_store) (address color_format : Nat)
    (antialias : surface_antialiasing) (width height pitch : Nat)
    (old convert : Option Nat) (ev : List backend_event)
    (hb : (bind_rtt_slow tr s address color_format antialias width height
      pitch old convert ev).branch = .reused) :
    ∃ pre cts, (bind_rtt_slow tr s address color_format antialias width
      height pitch old convert ev).trace = pre ++
        [backend_event.invalidate_surface_contents
          (bind_rtt_slow tr s address color_format antialias width height
            pitch old convert ev).handle cts address pitch,
         backend_event.prepare_rtt_for_drawing
          (bind_rtt_slow tr s address color_format antialias width height
            pitch old convert ev).handle] := by
  simp only [bind_rtt_slow] at hb ⊢
  rcases hsf : split_first (fun id => tr.rtt_has_format_width_height
      (s.heap id) color_format width height true) s.invalidated_resources
    with _ | ⟨pre, x, post⟩
  · cases old <;> simp [hsf] at hb
  · cases old with
    | none =>
      refine ⟨ev, convert, ?_⟩
      simp [hsf]
    | some o =>
      refine ⟨ev ++ [backend_event.notify_surface_invalidated o], some o, ?_⟩
      simp [hsf]

/-- Helper: `bind_rtt_own` on the reuse branch has the same closing
trace as `bind_rtt_slow`. -/
theorem bind_rtt_own_reuse_trace (tr : surface_store_traits)
    (s : surface_store) (address color_format : Nat)
    (antialias : surface_antialiasing) (width height pitch : Nat)
    (convert : Option Nat) (ev1 : List backend_event)
    (hb : (bind_rtt_own tr s address color_format antialias width height
      pitch convert ev1).branch = .reused) :
    ∃ pre cts, (bind_rtt_own tr s address color_format antialias width
      height pitch convert ev1).trace = pre ++
        [backend_event.invalidate_surface_contents
          (bind_rtt_own tr s address color_format antialias width height
            pitch convert ev1).handle cts address pitch,
         backend_event.prepare_rtt_for_drawing
          (bind_rtt_own tr s address color_format antialias width height
            pitch convert ev1).handle] := by
  simp only [bind_rtt_own] at hb ⊢
  rcases hc : map_find s.m_render_targets_storage address with _ | rid
  · simp only [hc] at hb ⊢
    exact bind_rtt_slow_reuse_trace _ _ _ _ _ _ _ _ _ _ _ hb
  · simp only [hc] at hb ⊢
    by_cases hfmt : tr.rtt_has_format_width_height (s.heap rid)
        color_format width height false
    · simp [hfmt] at hb
    · simp only [if_neg hfmt] at hb ⊢
      exact bind_rtt_slow_reuse_trace _ _ _ _ _ _ _ _ _ _ _ hb

/-- Helper: whenever `bind_ds_slow` takes the reuse branch, its trace
ends with `prepare_ds_for_drawing` immediately followed by
`invalidate_surface_contents` on the reused surface. -/
theorem bind_ds_slow_reuse_trace (tr : surface_store_traits)
    (s : surface_store) (address depth_format : Nat)
    (antialias : surface_antialiasing) (width height pitch : Nat)
    (old convert : Option Nat) (ev : List backend_event)
    (hb : (bind_ds_slow tr s address depth_format antialias width height
      pitch old convert ev).branch = .reused) :
    ∃ pre cts, (bind_ds_slow tr s address depth_format antialias width
      height pitch old convert ev).trace = pre ++
        [backend_event.prepare_ds_for_drawing
          (bind_ds_slow tr s address depth_format antialias width height
            pitch old convert ev).handle,
         backend_event.invalidate_surface_contents
          (bind_ds_slow tr s address depth_format antialias width height
            pitch old convert ev).handle cts address pitch] := by
  simp only [bind_ds_slow] at hb ⊢
  rcases hsf : split_first (fun id => tr.ds_has_format_width_height
      (s.heap id) depth_format width height true) s.invalidated_resources
    with _ | ⟨pre, x, post⟩
  · cases old <;> simp [hsf] at hb
  · cases old with
    | none =>
      refine ⟨ev, convert, ?_⟩
      simp [hsf]
    | some o =>
      refine ⟨ev ++ [backend_event.notify_surface_invalidated o], some o, ?_⟩
      simp [hsf]

/-- Helper: `bind_ds_own` on the reuse branch has the same closing trace
as `bind_ds_slow`. -/
theorem bind_ds_own_reuse_trace (tr : surface_store_traits)
    (s : surface_store) (address depth_format : Nat)
    (antialias : surface_antialiasing) (width height pitch : Nat)
    (convert : Option Nat) (ev1 : List backend_event)
    (hb : (bind_ds_own tr s address depth_format antialias width height
      pitch convert ev1).branch = .reused) :
    ∃ pre cts, (bind_ds_own tr s address depth_format antialias width
      height pitch convert ev1).trace = pre ++
        [backend_event.prepare_ds_for_drawing
          (bind_ds_own tr s address depth_format antialias width height
            pitch convert ev1).handle,
         backend_event.invalidate_surface_contents
          (bind_ds_own tr s address depth_format antialias width height
            pitch convert ev1).handle cts address pitch] := by
  simp only [bind_ds_own] at hb ⊢
  rcases hc : map_find s.m_depth_stencil_storage address with _ | did
  · simp only [hc] at hb ⊢
    exact bind_ds_slow_reuse_trace _ _ _ _ _ _ _ _ _ _ _ hb
  · simp only [hc] at hb ⊢
    by_cases hfmt : tr.ds_has_format_width_height (s.heap did)
        depth_format width height false
    · simp [hfmt] at hb
    · simp only [if_neg hfmt] at hb ⊢
      exact bind_ds_slow_reuse_trace _ _ _ _ _ _ _ _ _ _ _ hb

/-- C1, corrected.  On the invalidated-pool reuse branch the color bind
issues `invalidate_surface_contents` immediately followed by
`prepare_rtt_for_drawing`, and the depth bind issues
`prepare_ds_for_drawing` immediately followed by
`invalidate_surface_contents`: the asymmetry exists but is the reverse
of the claimed one. -/
theorem C1_reuse_order (tr : surface_store_traits) (s : surface_store)
    (address color_format depth_format : Nat)
    (antialias : surface_antialiasing) (width height pitch : Nat) :
    ((bind_address_as_render_targets tr s address color_format antialias
        width height pitch).branch = .reused →
      ∃ pre cts, (bind_address_as_render_targets tr s address color_format
        antialias width height pitch).trace = pre ++
        [backend_event.invalidate_surface_contents
          (bind_address_as_render_targets tr s address color_format
            antialias width height pitch).handle cts address pitch,
         backend_event.prepare_rtt_for_drawing
          (bind_address_as_render_targets tr s address color_format
            antialias width height pitch).handle]) ∧
    ((bind_address_as_depth_stencil tr s address depth_format antialias
        width height pitch).branch = .reused →
      ∃ pre cts, (bind_address_as_depth_stencil tr s address depth_format
        antialias width height pitch).trace = pre ++
        [backend_event.prepare_ds_for_drawing
          (bind_address_as_depth_stencil tr s address depth_format
            antialias width height pitch).handle,
         backend_event.invalidate_surface_contents
          (bind_address_as_depth_stencil tr s address depth_format
            antialias width height pitch).handle cts address pitch]) := by
  constructor
  · intro hb
    simp only [bind_address_as_render_targets] at hb ⊢
    rcases hd : map_find s.m_depth_stencil_storage address with _ | did <;>
      simp only [hd] at hb ⊢ <;>
      exact bind_rtt_own_reuse_trace _ _ _ _ _ _ _ _ _ _ hb
  · intro hb
    simp only [bind_address_as_depth_stencil] at hb ⊢
    rcases hd : map_find s.m_render_targets_storage address with _ | rid <;>
      simp only [hd] at hb ⊢ <;>
      exact bind_ds_own_reuse_trace _ _ _ _ _ _ _ _ _ _ hb

/-- C1 counterexample: at a concrete pool-reuse input, the color bind
does not issue `prepare_rtt_for_drawing` before
`invalidate_surface_contents` (it does the opposite), and the depth bind
does not issue `invalidate_surface_contents` before
`prepare_ds_for_drawing`, refuting the claimed ordering on both paths. -/
theorem C1_color_reuse_order_counterexample :
    (bind_address_as_render_targets tr_color_reuse s_pool7 256 0
      .center_1_sample 64 64 256).branch = .reused ∧
    event_before is_prepare_rtt_for_drawing is_invalidate_surface_contents
      (bind_address_as_render_targets tr_color_reuse s_pool7 256 0
        .center_1_sample 64 64 256).trace = false ∧
    event_before is_invalidate_surface_contents is_prepare_rtt_for_drawing
      (bind_address_as_render_targets tr_color_reuse s_pool7 256 0
        .center_1_sample 64 64 256).trace = true ∧
    (bind_address_as_depth_stencil tr_ds_reuse s_pool7 256 0
      .center_1_sample 64 64 256).branch = .reused ∧
    event_before is_invalidate_surface_contents is_prepare_ds_for_drawing
      (bind_address_as_depth_stencil tr_ds_reuse s_pool7 256 0
        .center_1_sample 64 64 256).trace = false ∧
    event_before is_prepare_ds_for_drawing is_invalidate_surface_contents
      (bind_address_as_depth_stencil tr_ds_reuse s_pool7 256 0
        .center_1_sample 64 64 256).trace = true := by
  decide

/-- Witness for C1 at the concrete pool-reuse input: the reuse branch is
taken and the two closing backend calls appear in the corrected order. -/
theorem C1_reuse_order_witness :
    ∃ pre cts, (bind_address_as_render_targets tr_color_reuse s_pool7 256 0
      .center_1_sample 64 64 256).trace = pre ++
      [backend_event.invalidate_surface_contents 7 cts 256 256,
       backend_event.prepare_rtt_for_drawing 7] :=
  (C1_reuse_order tr_color_reuse s_pool7 256 0 0 .center_1_sample 64 64 256).1
    (by decide)



/-! ### Structural lemmas about the bind engine -/

theorem split_first_eq (p : Nat → Bool) :
    ∀ (l pre post : List Nat) (x : Nat),
      split_first p l = some (pre, x, post) → l = pre ++ x :: post := by
  intro l
  induction l with
  | nil => intro pre post x h; simp [split_first] at h
  | cons y ys ih =>
    intro pre post x h
    simp only [split_first] at h
    by_cases hp : p y
    · simp [hp] at h
      obtain ⟨h1, h2, h3⟩ := h
      subst h1; subst h2; subst h3; rfl
    · rcases hys : split_first p ys with _ | ⟨pre2, x2, post2⟩ <;>
        rw [hys] at h <;> simp [hp] at h
      obtain ⟨h1, h2, h3⟩ := h
      subst h1; subst h2; subst h3
      simp [ih _ _ _ hys]

theorem bind_rtt_slow_store (tr : surface_store_traits) (s : surface_store)
    (address color_format : Nat) (antialias : surface_antialiasing)
    (width height pitch : Nat) (old cv : Option Nat)
    (ev : List backend_event) :
    (bind_rtt_slow tr s address color_format antialias width height pitch old cv ev).convert = cv ∧
    (bind_rtt_slow tr s address color_format antialias width height pitch old cv ev).store.m_depth_stencil_storage = s.m_depth_stencil_storage ∧
    (bind_rtt_slow tr s address color_format antialias width height pitch old cv ev).store.m_bound_render_targets = s.m_bound_render_targets ∧
    (bind_rtt_slow tr s address color_format antialias width height pitch old cv ev).store.m_bound_depth_stencil = s.m_bound_depth_stencil ∧
    (∃ t, (bind_rtt_slow tr s address color_format antialias width height pitch old cv ev).trace = ev ++ t) ∧
    map_find (bind_rtt_slow tr s address color_format antialias width height pitch old cv ev).store.m_render_targets_storage address =
      some (bind_rtt_slow tr s address color_format antialias width height pitch old cv ev).handle ∧
    (∀ a, a ≠ address →
      map_find (bind_rtt_slow tr s address color_format antialias width height pitch old cv ev).store.m_render_targets_storage a =
        map_find s.m_render_targets_storage a) ∧
    (∀ y, y ∈ s.invalidated_resources →
      y ∈ (bind_rtt_slow tr s address color_format antialias width height pitch old cv ev).store.invalidated_resources ∨
      (bind_rtt_slow tr s address color_format antialias width height pitch old cv ev).handle = y) := by
  simp only [bind_rtt_slow]
  rcases hsf : split_first (fun id => tr.rtt_has_format_width_height
      (s.heap id) color_format width height true) s.invalidated_resources
    with _ | ⟨pre, x, post⟩
  · cases old with
    | none =>
      refine ⟨rfl, rfl, rfl, rfl, ⟨_, rfl⟩, ?_, fun a ha => ?_,
        fun y hy => Or.inl hy⟩
      · simp [map_find_insert]
      · simp [map_find_insert, ha]
    | some o =>
      refine ⟨rfl, rfl, rfl, rfl, ⟨_, rfl⟩, ?_, fun a ha => ?_,
        fun y hy => Or.inl (by simp [hy])⟩
      · simp [map_find_insert]
      · simp [map_find_insert, ha]
  · have hl := split_first_eq _ _ _ _ _ hsf
    cases old with
    | none =>
      refine ⟨rfl, rfl, rfl, rfl, ⟨_, rfl⟩, ?_, fun a ha => ?_, fun y hy => ?_⟩
      · simp [map_find_insert]
      · simp [map_find_insert, ha]
      · rw [hl] at hy; simp at hy
        rcases hy with hy | hy | hy
        · exact Or.inl (by simp [hy])
        · exact Or.inr (by simp [hy])
        · exact Or.inl (by simp [hy])
    | some o =>
      refine ⟨rfl, rfl, rfl, rfl, ⟨_, rfl⟩, ?_, fun a ha => ?_, fun y hy => ?_⟩
      · simp [map_find_insert]
      · simp [map_find_insert, ha]
      · rw [hl] at hy; simp at hy
        rcases hy with hy | hy | hy
        · exact Or.inl (by simp [hy])
        · exact Or.inr (by simp [hy])
        · exact Or.inl (by simp [hy])


theorem bind_ds_slow_store (tr : surface_store_traits) (s : surface_store)
    (address depth_format : Nat) (antialias : surface_antialiasing)
    (width height pitch : Nat) (old cv : Option Nat)
    (ev : List backend_event) :
    (bind_ds_slow tr s address depth_format antialias width height pitch old cv ev).convert = cv ∧
    (bind_ds_slow tr s address depth_format antialias width height pitch old cv ev).store.m_render_targets_storage = s.m_render_targets_storage ∧
    (bind_ds_slow tr s address depth_format antialias width height pitch old cv ev).store.m_bound_render_targets = s.m_bound_render_targets ∧
    (bind_ds_slow tr s address depth_format antialias width height pitch old cv ev).store.m_bound_depth_stencil = s.m_bound_depth_stencil ∧
    (∃ t, (bind_ds_slow tr s address depth_format antialias width height pitch old cv ev).trace = ev ++ t) ∧
    map_find (bind_ds_slow tr s address depth_format antialias width height pitch old cv ev).store.m_depth_stencil_storage address =
      some (bind_ds_slow tr s address depth_format antialias width height pitch old cv ev).handle ∧
    (∀ a, a ≠ address →
      map_find (bind_ds_slow tr s address depth_format antialias width height pitch old cv ev).store.m_depth_stencil_storage a =
        map_find s.m_depth_stencil_storage a) ∧
    (∀ y, y ∈ s.invalidated_resources →
      y ∈ (bind_ds_slow tr s address depth_format antialias width height pitch old cv ev).store.invalidated_resources ∨
      (bind_ds_slow tr s address depth_format antialias width height pitch old cv ev).handle = y) := by
  simp only [bind_ds_slow]
  rcases hsf : split_first (fun id => tr.ds_has_format_width_height
      (s.heap id) depth_format width height true) s.invalidated_resources
    with _ | ⟨pre, x, post⟩
  · cases old with
    | none =>
      refine ⟨rfl, rfl, rfl, rfl, ⟨_, rfl⟩, ?_, fun a ha => ?_,
        fun y hy => Or.inl hy⟩
      · simp [map_find_insert]
      · simp [map_find_insert, ha]
    | some o =>
      refine ⟨rfl, rfl, rfl, rfl, ⟨_, rfl⟩, ?_, fun a ha => ?_,
        fun y hy => Or.inl (by simp [hy])⟩
      · simp [map_find_insert]
      · simp [map_find_insert, ha]
  · have hl := split_first_eq _ _ _ _ _ hsf
    cases old with
    | none =>
      refine ⟨rfl, rfl, rfl, rfl, ⟨_, rfl⟩, ?_, fun a ha => ?_, fun y hy => ?_⟩
      · simp [map_find_insert]
      · simp [map_find_insert, ha]
      · rw [hl] at hy; simp at hy
        rcases hy with hy | hy | hy
        · exact Or.inl (by simp [hy])
        · exact Or.inr (by simp [hy])
        · exact Or.inl (by simp [hy])
    | some o =>
      refine ⟨rfl, rfl, rfl, rfl, ⟨_, rfl⟩, ?_, fun a ha => ?_, fun y hy => ?_⟩
      · simp [map_find_insert]
      · simp [map_find_insert, ha]
      · rw [hl] at hy; simp at hy
        rcases hy with hy | hy | hy
        · exact Or.inl (by simp [hy])
        · exact Or.inr (by simp [hy])
        · exact Or.inl (by simp [hy])



theorem bind_rtt_own_store (tr : surface_store_traits) (s : surface_store)
    (address color_format : Nat) (antialias : surface_antialiasing)
    (width height pitch : Nat) (cv : Option Nat)
    (ev1 : List backend_event) :
    (bind_rtt_own tr s address color_format antialias width height pitch cv ev1).convert = cv ∧
    (bind_rtt_own tr s address color_format antialias width height pitch cv ev1).store.m_depth_stencil_storage = s.m_depth_stencil_storage ∧
    (bind_rtt_own tr s address color_format antialias width height pitch cv ev1).store.m_bound_render_targets = s.m_bound_render_targets ∧
    (bind_rtt_own tr s address color_format antialias width height pitch cv ev1).store.m_bound_depth_stencil = s.m_bound_depth_stencil ∧
    (∃ t, (bind_rtt_own tr s address color_format antialias width height pitch cv ev1).trace = ev1 ++ t) ∧
    map_find (bind_rtt_own tr s address color_format antialias width height pitch cv ev1).store.m_render_targets_storage address =
      some (bind_rtt_own tr s address color_format antialias width height pitch cv ev1).handle ∧
    (∀ a, a ≠ address →
      map_find (bind_rtt_own tr s address color_format antialias width height pitch cv ev1).store.m_render_targets_storage a =
        map_find s.m_render_targets_storage a) ∧
    (∀ y, y ∈ s.invalidated_resources →
      y ∈ (bind_rtt_own tr s address color_format antialias width height pitch cv ev1).store.invalidated_resources ∨
      (bind_rtt_own tr s address color_format antialias width height pitch cv ev1).handle = y) := by
  simp only [bind_rtt_own]
  rcases hc : map_find s.m_render_targets_storage address with _ | rid
  · exact bind_rtt_slow_store tr s address color_format antialias width height pitch none cv ev1
  · dsimp only
    by_cases hfmt : tr.rtt_has_format_width_height (s.heap rid) color_format width height false = true
    · rw [if_pos hfmt]
      exact ⟨rfl, rfl, rfl, rfl, ⟨_, rfl⟩, hc, fun a ha => rfl,
        fun y hy => Or.inl hy⟩
    · rw [if_neg hfmt]
      have h := bind_rtt_slow_store tr
        { s with m_render_targets_storage := map_erase s.m_render_targets_storage address }
        address color_format antialias width height pitch (some rid) cv ev1
      exact ⟨h.1, h.2.1, h.2.2.1, h.2.2.2.1, h.2.2.2.2.1, h.2.2.2.2.2.1,
        fun a ha => (h.2.2.2.2.2.2.1 a ha).trans (by simp [map_find_erase, ha]),
        h.2.2.2.2.2.2.2⟩

theorem bind_ds_own_store (tr : surface_store_traits) (s : surface_store)
    (address depth_format : Nat) (antialias : surface_antialiasing)
    (width height pitch : Nat) (cv : Option Nat)
    (ev1 : List backend_event) :
    (bind_ds_own tr s address depth_format antialias width height pitch cv ev1).convert = cv ∧
    (bind_ds_own tr s address depth_format antialias width height pitch cv ev1).store.m_render_targets_storage = s.m_render_targets_storage ∧
    (bind_ds_own tr s address depth_format antialias width height pitch cv ev1).store.m_bound_render_targets = s.m_bound_render_targets ∧
    (bind_ds_own tr s address depth_format antialias width height pitch cv ev1).store.m_bound_depth_stencil = s.m_bound_depth_stencil ∧
    (∃ t, (bind_ds_own tr s address depth_format antialias width height pitch cv ev1).trace = ev1 ++ t) ∧
    map_find (bind_ds_own tr s address depth_format antialias width height pitch cv ev1).store.m_depth_stencil_storage address =
      some (bind_ds_own tr s address depth_format antialias width height pitch cv ev1).handle ∧
    (∀ a, a ≠ address →
      map_find (bind_ds_own tr s address depth_format antialias width height pitch cv ev1).store.m_depth_stencil_storage a =
        map_find s.m_depth_stencil_storage a) ∧
    (∀ y, y ∈ s.invalidated_resources →
      y ∈ (bind_ds_own tr s address depth_format antialias width height pitch cv ev1).store.invalidated_resources ∨
      (bind_ds_own tr s address depth_format antialias width height pitch cv ev1).handle = y) := by
  simp only [bind_ds_own]
  rcases hc : map_find s.m_depth_stencil_storage address with _ | rid
  · exact bind_ds_slow_store tr s address depth_format antialias width height pitch none cv ev1
  · dsimp only
    by_cases hfmt : tr.ds_has_format_width_height (s.heap rid) depth_format width height false = true
    · rw [if_pos hfmt]
      exact ⟨rfl, rfl, rfl, rfl, ⟨_, rfl⟩, hc, fun a ha => rfl,
        fun y hy => Or.inl hy⟩
    · rw [if_neg hfmt]
      have h := bind_ds_slow_store tr
        { s with m_depth_stencil_storage := map_erase s.m_depth_stencil_storage address }
        address depth_format antialias width height pitch (some rid) cv ev1
      exact ⟨h.1, h.2.1, h.2.2.1, h.2.2.2.1, h.2.2.2.2.1, h.2.2.2.2.2.1,
        fun a ha => (h.2.2.2.2.2.2.1 a ha).trans (by simp [map_find_erase, ha]),
        h.2.2.2.2.2.2.2⟩

theorem bind_address_as_render_targets_store (tr : surface_store_traits) (s : surface_store)
    (address color_format : Nat) (antialias : surface_antialiasing)
    (width height pitch : Nat) :
    map_find (bind_address_as_render_targets tr s address color_format antialias width height pitch).store.m_depth_stencil_storage address = none ∧
    (∀ a, a ≠ address →
      map_find (bind_address_as_render_targets tr s address color_format antialias width height pitch).store.m_depth_stencil_storage a =
        map_find s.m_depth_stencil_storage a) ∧
    map_find (bind_address_as_render_targets tr s address color_format antialias width height pitch).store.m_render_targets_storage address =
      some (bind_address_as_render_targets tr s address color_format antialias width height pitch).handle ∧
    (∀ a, a ≠ address →
      map_find (bind_address_as_render_targets tr s address color_format antialias width height pitch).store.m_render_targets_storage a =
        map_find s.m_render_targets_storage a) ∧
    (bind_address_as_render_targets tr s address color_format antialias width height pitch).store.m_bound_render_targets = s.m_bound_render_targets ∧
    (bind_address_as_render_targets tr s address color_format antialias width height pitch).store.m_bound_depth_stencil = s.m_bound_depth_stencil ∧
    (∀ aid, map_find s.m_depth_stencil_storage address = some aid →
      (bind_address_as_render_targets tr s address color_format antialias width height pitch).trace.head? =
        some (backend_event.notify_surface_invalidated aid) ∧
      (bind_address_as_render_targets tr s address color_format antialias width height pitch).convert = some aid ∧
      (aid ∈ (bind_address_as_render_targets tr s address color_format antialias width height pitch).store.invalidated_resources ∨
        (bind_address_as_render_targets tr s address color_format antialias width height pitch).handle = aid)) := by
  simp only [bind_address_as_render_targets]
  rcases hd : map_find s.m_depth_stencil_storage address with _ | aid0
  · have h := bind_rtt_own_store tr s address color_format antialias width height pitch none []
    refine ⟨(congrArg (fun m => map_find m address) h.2.1).trans hd,
      fun a ha => congrArg (fun m => map_find m a) h.2.1,
      h.2.2.2.2.2.1, h.2.2.2.2.2.2.1, h.2.2.1, h.2.2.2.1,
      fun aid haid => by simp at haid⟩
  · have h := bind_rtt_own_store tr
      { s with m_depth_stencil_storage := map_erase s.m_depth_stencil_storage address,
               invalidated_resources := s.invalidated_resources ++ [aid0] }
      address color_format antialias width height pitch (some aid0)
      [backend_event.notify_surface_invalidated aid0]
    refine ⟨(congrArg (fun m => map_find m address) h.2.1).trans (by simp [map_find_erase]),
      fun a ha => (congrArg (fun m => map_find m a) h.2.1).trans (by simp [map_find_erase, ha]),
      h.2.2.2.2.2.1, h.2.2.2.2.2.2.1, h.2.2.1, h.2.2.2.1,
      ?_⟩
    intro aid haid
    obtain rfl : aid0 = aid := by injection haid
    obtain ⟨t, ht⟩ := h.2.2.2.2.1
    refine ⟨by rw [ht]; rfl, h.1, ?_⟩
    have hm := h.2.2.2.2.2.2.2 aid0 (by simp)
    simpa using hm

theorem bind_address_as_depth_stencil_store (tr : surface_store_traits) (s : surface_store)
    (address depth_format : Nat) (antialias : surface_antialiasing)
    (width height pitch : Nat) :
    map_find (bind_address_as_depth_stencil tr s address depth_format antialias width height pitch).store.m_render_targets_storage address = none ∧
    (∀ a, a ≠ address →
      map_find (bind_address_as_depth_stencil tr s address depth_format antialias width height pitch).store.m_render_targets_storage a =
        map_find s.m_render_targets_storage a) ∧
    map_find (bind_address_as_depth_stencil tr s address depth_format antialias width height pitch).store.m_depth_stencil_storage address =
      some (bind_address_as_depth_stencil tr s address depth_format antialias width height pitch).handle ∧
    (∀ a, a ≠ address →
      map_find (bind_address_as_depth_stencil tr s address depth_format antialias width height pitch).store.m_depth_stencil_storage a =
        map_find s.m_depth_stencil_storage a) ∧
    (bind_address_as_depth_stencil tr s address depth_format antialias width height pitch).store.m_bound_render_targets = s.m_bound_render_targets ∧
    (bind_address_as_depth_stencil tr s address depth_format antialias width height pitch).store.m_bound_depth_stencil = s.m_bound_depth_stencil ∧
    (∀ aid, map_find s.m_render_targets_storage address = some aid →
      (bind_address_as_depth_stencil tr s address depth_format antialias width height pitch).trace.head? =
        some (backend_event.notify_surface_invalidated aid) ∧
      (bind_address_as_depth_stencil tr s address depth_format antialias width height pitch).convert = some aid ∧
      (aid ∈ (bind_address_as_depth_stencil tr s address depth_format antialias width height pitch).store.invalidated_resources ∨
        (bind_address_as_depth_stencil tr s address depth_format antialias width height pitch).handle = aid)) := by
  simp only [bind_address_as_depth_stencil]
  rcases hd : map_find s.m_render_targets_storage address with _ | aid0
  · have h := bind_ds_own_store tr s address depth_format antialias width height pitch none []
    refine ⟨(congrArg (fun m => map_find m address) h.2.1).trans hd,
      fun a ha => congrArg (fun m => map_find m a) h.2.1,
      h.2.2.2.2.2.1, h.2.2.2.2.2.2.1, h.2.2.1, h.2.2.2.1,
      fun aid haid => by simp at haid⟩
  · have h := bind_ds_own_store tr
      { s with m_render_targets_storage := map_erase s.m_render_targets_storage address,
               invalidated_resources := s.invalidated_resources ++ [aid0] }
      address depth_format antialias width height pitch (some aid0)
      [backend_event.notify_surface_invalidated aid0]
    refine ⟨(congrArg (fun m => map_find m address) h.2.1).trans (by simp [map_find_erase]),
      fun a ha => (congrArg (fun m => map_find m a) h.2.1).trans (by simp [map_find_erase, ha]),
      h.2.2.2.2.2.1, h.2.2.2.2.2.2.1, h.2.2.1, h.2.2.2.1,
      ?_⟩
    intro aid haid
    obtain rfl : aid0 = aid := by injection haid
    obtain ⟨t, ht⟩ := h.2.2.2.2.1
    refine ⟨by rw [ht]; rfl, h.1, ?_⟩
    have hm := h.2.2.2.2.2.2.2 aid0 (by simp)
    simpa using hm


/-! ### C3: cross-type exclusion -/

/-- C3.  Binding either type preserves the invariant that no guest
address appears in both maps; when the opposite type occupies the target
address, the bind notifies the backend of the displaced storage as its
first backend call, saves its handle as `convert_surface`, pushes the
storage onto `invalidated_resources` (where it stays unless the pool
scan immediately hands it back as the reused surface) and erases it
from the opposite map. -/
theorem C3_cross_type_exclusion (tr : surface_store_traits)
    (s : surface_store) (address color_format depth_format : Nat)
    (antialias : surface_antialiasing) (width height pitch : Nat)
    (hdisj : maps_disjoint s) :
    maps_disjoint (bind_address_as_render_targets tr s address color_format
      antialias width height pitch).store ∧
    maps_disjoint (bind_address_as_depth_stencil tr s address depth_format
      antialias width height pitch).store ∧
    (∀ did, map_find s.m_depth_stencil_storage address = some did →
      (bind_address_as_render_targets tr s address color_format antialias
        width height pitch).trace.head? =
        some (backend_event.notify_surface_invalidated did) ∧
      (bind_address_as_render_targets tr s address color_format antialias
        width height pitch).convert = some did ∧
      (did ∈ (bind_address_as_render_targets tr s address color_format
        antialias width height pitch).store.invalidated_resources ∨
        (bind_address_as_render_targets tr s address color_format antialias
          width height pitch).handle = did) ∧
      map_find (bind_address_as_render_targets tr s address color_format
        antialias width height pitch).store.m_depth_stencil_storage address = none) ∧
    (∀ rid, map_find s.m_render_targets_storage address = some rid →
      (bind_address_as_depth_stencil tr s address depth_format antialias
        width height pitch).trace.head? =
        some (backend_event.notify_surface_invalidated rid) ∧
      (bind_address_as_depth_stencil tr s address depth_format antialias
        width height pitch).convert = some rid ∧
      (rid ∈ (bind_address_as_depth_stencil tr s address depth_format
        antialias width height pitch).store.invalidated_resources ∨
        (bind_address_as_depth_stencil tr s address depth_format antialias
          width height pitch).handle = rid) ∧
      map_find (bind_address_as_depth_stencil tr s address depth_format
        antialias width height pitch).store.m_render_targets_storage address = none) := by
  have hc := bind_address_as_render_targets_store tr s address color_format
    antialias width height pitch
  have hz := bind_address_as_depth_stencil_store tr s address depth_format
    antialias width height pitch
  refine ⟨fun a => ?_, fun a => ?_, fun did hdid => ?_, fun rid hrid => ?_⟩
  · by_cases ha : a = address
    · subst ha; exact Or.inr hc.1
    · rw [hc.2.1 a ha, hc.2.2.2.1 a ha]; exact hdisj a
  · by_cases ha : a = address
    · subst ha; exact Or.inl hz.1
    · rw [hz.2.1 a ha, hz.2.2.2.1 a ha]
      rcases hdisj a with h | h
      · exact Or.inl h
      · exact Or.inr h
  · obtain ⟨h1, h2, h3⟩ := hc.2.2.2.2.2.2 did hdid
    exact ⟨h1, h2, h3, hc.1⟩
  · obtain ⟨h1, h2, h3⟩ := hz.2.2.2.2.2.2 rid hrid
    exact ⟨h1, h2, h3, hz.1⟩

/-- Witness for C3: a concrete depth surface displaced by a color bind
at the same address. -/
theorem C3_cross_type_exclusion_witness :
    (bind_address_as_render_targets tr_plain s_depth3 4096 0
      .center_1_sample 64 64 256).trace.head? =
      some (backend_event.notify_surface_invalidated 3) ∧
    (bind_address_as_render_targets tr_plain s_depth3 4096 0
      .center_1_sample 64 64 256).convert = some 3 ∧
    map_find (bind_address_as_render_targets tr_plain s_depth3 4096 0
      .center_1_sample 64 64 256).store.m_depth_stencil_storage 4096 = none := by
  have h := (C3_cross_type_exclusion tr_plain s_depth3 4096 0 0
    .center_1_sample 64 64 256 (fun _ => Or.inl rfl)).2.2.1 3 (by decide)
  exact ⟨h.1, h.2.1, h.2.2.2⟩


/-! ### C5: overlap results are sorted -/

theorem overlap_le_iff (heap : Nat → render_target_descriptor)
    (a b : surface_overlap_info) : overlap_le heap a b ↔ c5_rel heap a b := by
  unfold overlap_le overlap_lt c5_rel
  by_cases he : (heap b.surface).last_use_tag = (heap a.surface).last_use_tag
  · simp [he]
  · simp [he]
    constructor
    · intro h
      exact Or.inl (by omega)
    · intro h
      rcases h with h | ⟨h1, h2⟩
      · omega
      · exact absurd h1.symm he

theorem c5_rel_total (heap : Nat → render_target_descriptor)
    (a b : surface_overlap_info) : c5_rel heap a b ∨ c5_rel heap b a := by
  unfold c5_rel
  rcases Nat.lt_trichotomy (heap a.surface).last_use_tag
      (heap b.surface).last_use_tag with h | h | h
  · exact Or.inl (Or.inl h)
  · rcases Nat.le_total (a.width * a.height) (b.width * b.height) with h2 | h2
    · exact Or.inl (Or.inr ⟨h, h2⟩)
    · exact Or.inr (Or.inr ⟨h.symm, h2⟩)
  · exact Or.inr (Or.inl h)

theorem c5_rel_trans (heap : Nat → render_target_descriptor)
    (a b c : surface_overlap_info) (h1 : c5_rel heap a b)
    (h2 : c5_rel heap b c) : c5_rel heap a c := by
  unfold c5_rel at *
  rcases h1 with h1 | ⟨h1, h1a⟩ <;> rcases h2 with h2 | ⟨h2, h2a⟩
  · exact Or.inl (h1.trans h2)
  · exact Or.inl (h2 ▸ h1)
  · exact Or.inl (h1 ▸ h2)
  · exact Or.inr ⟨h1.trans h2, h1a.trans h2a⟩

theorem c5_sorted_aux (heap : Nat → render_target_descriptor)
    (l : List surface_overlap_info) :
    List.Chain' (c5_rel heap)
      (if 1 < l.length then List.insertionSort (overlap_le heap) l else l) := by
  by_cases hl : 1 < l.length
  · rw [if_pos hl]
    haveI : IsTotal surface_overlap_info (overlap_le heap) :=
      ⟨fun a b => by
        rw [overlap_le_iff, overlap_le_iff]
        exact c5_rel_total heap a b⟩
    haveI : IsTrans surface_overlap_info (overlap_le heap) :=
      ⟨fun a b c hab hbc => by
        rw [overlap_le_iff] at *
        exact c5_rel_trans heap a b c hab hbc⟩
    have hs := List.sorted_insertionSort (overlap_le heap) l
    exact (List.Pairwise.chain' hs).imp fun x y hxy => (overlap_le_iff heap x y).mp hxy
  · rw [if_neg hl]
    match l with
    | [] => exact List.chain'_nil
    | [x] => exact List.chain'_singleton x
    | x :: y :: rest => exact absurd (by simp) hl

/-- C5.  Whatever the store and query, the overlap list returned by
`get_merged_texture_memory_region` is sorted: for every adjacent pair,
either the first record's `last_use_tag` is strictly smaller, or the
tags are equal and the first record's area is at most the second's. -/
theorem C5_result_sorted (tr : surface_store_traits) (mem : guest_mem)
    (s : surface_store)
    (texaddr required_width required_height required_pitch : Nat) :
    List.Chain' (c5_rel s.heap)
      (get_merged_texture_memory_region tr mem s texaddr required_width
        required_height required_pitch).1 := by
  simp only [get_merged_texture_memory_region]
  exact c5_sorted_aux s.heap _


/-! ### C7: repeated `on_write` is a no-op -/

theorem on_write_bound_step_tags (mem : guest_mem) (address : Nat)
    (acc : surface_store × List backend_event) (i : Fin 4) :
    (on_write_bound_step mem address acc i).1.write_tag = acc.1.write_tag ∧
    (on_write_bound_step mem address acc i).1.cache_tag = acc.1.cache_tag := by
  unfold on_write_bound_step
  dsimp only
  split_ifs with h
  · exact ⟨rfl, rfl⟩
  · cases (acc.1.m_bound_render_targets i).2 <;> exact ⟨rfl, rfl⟩

theorem on_write_depth_step_tags (mem : guest_mem) (address : Nat)
    (acc : surface_store × List backend_event) :
    (on_write_depth_step mem address acc).1.write_tag = acc.1.write_tag ∧
    (on_write_depth_step mem address acc).1.cache_tag = acc.1.cache_tag := by
  unfold on_write_depth_step
  cases (acc.1.m_bound_depth_stencil).2 with
  | none => exact ⟨rfl, rfl⟩
  | some h =>
    dsimp only
    split_ifs with hcond
    · exact ⟨rfl, rfl⟩
    · exact ⟨rfl, rfl⟩

theorem on_write_tail_tags (mem : guest_mem) (address : Nat) :
    ∀ (l : List (Fin 4)) (acc : surface_store × List backend_event),
      (on_write_depth_step mem address
        (l.foldl (on_write_bound_step mem address) acc)).1.write_tag = acc.1.write_tag ∧
      (on_write_depth_step mem address
        (l.foldl (on_write_bound_step mem address) acc)).1.cache_tag = acc.1.cache_tag := by
  intro l
  induction l with
  | nil =>
    intro acc
    exact on_write_depth_step_tags mem address acc
  | cons i rest ih =>
    intro acc
    have h1 := on_write_bound_step_tags mem address acc i
    have h2 := ih (on_write_bound_step mem address acc i)
    exact ⟨h2.1.trans h1.1, h2.2.trans h1.2⟩

theorem on_write_slow_tags (mem : guest_mem) (s : surface_store) :
    (on_write_slow mem s 0).1.write_tag = s.cache_tag ∧
    (on_write_slow mem s 0).1.cache_tag = s.cache_tag := by
  simp only [on_write_slow]
  split_ifs with hmt <;>
    exact ⟨(on_write_tail_tags mem 0 _ _).1, (on_write_tail_tags mem 0 _ _).2⟩

/-- C7.  An `on_write()` with address 0 that immediately follows another
`on_write()` with address 0 (with `cache_tag` unchanged in between) is a
no-op: it returns the store unchanged and takes no action at all — no
memory-tree rebuild, no dirty marks, no descriptor `on_write` calls. -/
theorem C7_on_write_noop (mem : guest_mem) (s : surface_store) :
    surface_store.on_write mem (surface_store.on_write mem s 0).1 0 =
      ((surface_store.on_write mem s 0).1, []) := by
  have key : (surface_store.on_write mem s 0).1.write_tag =
      (surface_store.on_write mem s 0).1.cache_tag := by
    unfold surface_store.on_write
    by_cases h : s.write_tag = s.cache_tag
    · rw [if_pos ⟨rfl, h⟩]
      exact h
    · rw [if_neg (fun hc => h hc.2)]
      have ht := on_write_slow_tags mem s
      rw [ht.1, ht.2]
  generalize (surface_store.on_write mem s 0).1 = X at key ⊢
  unfold surface_store.on_write
  rw [if_pos ⟨rfl, key⟩]


/-! ### C4: overlap projection for a candidate at or after the texture -/

/-- C4.  For a candidate surface whose base address is at or after the
texture address (offset = A - T), as long as no `u16` store truncates
and the requested extent is not exceeded, the emitted overlap record has
`src_x = src_y = 0`, `dst_y = offset / RP`, `dst_x = (offset mod RP) / bpp`,
`width = min(surface_width * scale_x, RW - dst_x) / scale_x`,
`height = min(surface_height * scale_y, RH - dst_y) / scale_y`, and
`is_clipped` true iff the pre-division width or height fell short of
`RW` or `RH`. -/
theorem C4_overlap_projection (texaddr required_width required_height
    required_pitch this_address sid : Nat) (d : render_target_descriptor)
    (is_depth : Bool) (scale_x scale_y : Nat)
    (hRW : required_width < 2 ^ 32) (hRH : required_height < 2 ^ 32)
    (hdx : (this_address - texaddr) % required_pitch / d.bpp ≤ required_width)
    (hdy : (this_address - texaddr) / required_pitch ≤ required_height)
    (hdx16 : (this_address - texaddr) % required_pitch / d.bpp < 2 ^ 16)
    (hdy16 : (this_address - texaddr) / required_pitch < 2 ^ 16)
    (hsw : d.surface_width * scale_x < 2 ^ 16)
    (hsh : d.surface_height * scale_y < 2 ^ 16) :
    overlap_info_after texaddr required_width required_height
      required_pitch this_address sid d is_depth scale_x scale_y =
      { surface := sid, base_address := this_address, is_depth := is_depth,
        is_clipped :=
          decide (min (d.surface_width * scale_x)
            (required_width - (this_address - texaddr) % required_pitch / d.bpp)
              < required_width) ||
          decide (min (d.surface_height * scale_y)
            (required_height - (this_address - texaddr) / required_pitch)
              < required_height),
        src_x := 0, src_y := 0,
        dst_x := (this_address - texaddr) % required_pitch / d.bpp,
        dst_y := (this_address - texaddr) / required_pitch,
        width := min (d.surface_width * scale_x)
          (required_width - (this_address - texaddr) % required_pitch / d.bpp)
            / scale_x,
        height := min (d.surface_height * scale_y)
          (required_height - (this_address - texaddr) / required_pitch)
            / scale_y } := by
  have hdxm : ((this_address - texaddr) % required_pitch / d.bpp) % 2 ^ 16 =
      (this_address - texaddr) % required_pitch / d.bpp :=
    Nat.mod_eq_of_lt hdx16
  have hdym : ((this_address - texaddr) / required_pitch) % 2 ^ 16 =
      (this_address - texaddr) / required_pitch :=
    Nat.mod_eq_of_lt hdy16
  have hsub1 : sub32 required_width
      ((this_address - texaddr) % required_pitch / d.bpp) =
      required_width - (this_address - texaddr) % required_pitch / d.bpp := by
    unfold sub32
    omega
  have hsub2 : sub32 required_height
      ((this_address - texaddr) / required_pitch) =
      required_height - (this_address - texaddr) / required_pitch := by
    unfold sub32
    omega
  have hminw : (min (d.surface_width * scale_x)
      (required_width - (this_address - texaddr) % required_pitch / d.bpp)) % 2 ^ 16 =
      min (d.surface_width * scale_x)
        (required_width - (this_address - texaddr) % required_pitch / d.bpp) :=
    Nat.mod_eq_of_lt (Nat.lt_of_le_of_lt (Nat.min_le_left _ _) hsw)
  have hminh : (min (d.surface_height * scale_y)
      (required_height - (this_address - texaddr) / required_pitch)) % 2 ^ 16 =
      min (d.surface_height * scale_y)
        (required_height - (this_address - texaddr) / required_pitch) :=
    Nat.mod_eq_of_lt (Nat.lt_of_le_of_lt (Nat.min_le_left _ _) hsh)
  simp only [overlap_info_after, t16]
  simp only [hdxm, hdym, hsub1, hsub2, hminw, hminh]

/-- Witness for C4: the theorem applied at the literal S5 scenario, and
the full overlap query on the S5 store producing exactly the claimed
record (`dst_y = 4`, `dst_x = 0`, `src = 0`, `width = 64`,
`height = 60`, clipped). -/
theorem C4_overlap_projection_witness :
    overlap_info_after 16777216 128 64 256 16778240 1 d_s5 false 1 1 =
      { surface := 1, base_address := 16778240, is_depth := false,
        is_clipped := true, src_x := 0, src_y := 0, dst_x := 0, dst_y := 4,
        width := 64, height := 60 } ∧
    (get_merged_texture_memory_region tr_plain mem_zero store_s5
      16777216 128 64 256).1 =
      [{ surface := 1, base_address := 16778240, is_depth := false,
         is_clipped := true, src_x := 0, src_y := 0, dst_x := 0, dst_y := 4,
         width := 64, height := 60 }] := by
  constructor
  · exact (C4_overlap_projection 16777216 128 64 256 16778240 1 d_s5 false 1 1
      (by decide) (by decide) (by decide) (by decide) (by decide) (by decide)
      (by decide) (by decide)).trans (by decide)
  · decide


/-! ### C2: a bound surface that fails `test()` during the overlap query -/

/-- A candidate whose descriptor fails `test()` is never emitted as an
overlap record: it is either filtered out or put on the dirty list. -/
theorem c2_candidate (tr : surface_store_traits) (mem : guest_mem)
    (heap : Nat → render_target_descriptor)
    (texaddr required_width required_height required_pitch limit : Nat)
    (is_depth : Bool) (e : Nat × Nat)
    (ht : (heap e.2).test mem = false) :
    process_candidate tr mem heap texaddr required_width required_height
      required_pitch limit is_depth e = none ∨
    process_candidate tr mem heap texaddr required_width required_height
      required_pitch limit is_depth e = some (Sum.inr (e.1, is_depth)) := by
  unfold process_candidate
  dsimp only
  split_ifs <;> simp_all

/-- C2, corrected.  When the single stored color surface is bound and
fails `test()`, the overlap query returns an empty result, but the
automatic dirty-pruning pass is refused (`invalidate_surface_address`
declines to touch a bound address), so the store — map membership and
`invalidated_resources` included — is left completely unchanged. -/
theorem C2_bound_dirty_surface (tr : surface_store_traits)
    (mem : guest_mem) (s : surface_store) (A id : Nat)
    (texaddr required_width required_height required_pitch : Nat)
    (hc : s.m_render_targets_storage = [(A, id)])
    (hd : s.m_depth_stencil_storage = [])
    (hb : address_is_bound s A = true)
    (ht : (s.heap id).test mem = false) :
    get_merged_texture_memory_region tr mem s texaddr required_width
      required_height required_pitch = ([], s) := by
  have hcand := c2_candidate tr mem s.heap texaddr required_width
    required_height required_pitch
    ((texaddr + required_pitch * required_height) % 2 ^ 32) false (A, id) ht
  unfold get_merged_texture_memory_region
  rw [hc, hd]
  rcases hcand with h | h <;>
    simp only [process_list, List.foldl_cons, List.foldl_nil, h] <;>
    split_ifs <;>
    simp [invalidate_surface_address, hb]

/-- C2 counterexample: at the literal S4 input (bound surface at
0x01000000 whose sample no longer matches), the query result is empty —
but the surface's storage is *not* moved to `invalidated_resources`
(the pool stays empty and the map still holds the address), refuting
the claimed dirty-pruning move. -/
theorem C2_dirty_prune_counterexample :
    (get_merged_texture_memory_region tr_plain mem_zero store_s1_bound
      16777216 640 480 2560).1 = [] ∧
    (get_merged_texture_memory_region tr_plain mem_zero store_s1_bound
      16777216 640 480 2560).2.invalidated_resources = [] ∧
    map_find (get_merged_texture_memory_region tr_plain mem_zero
      store_s1_bound 16777216 640 480 2560).2.m_render_targets_storage
      16777216 = some 1 := by
  decide

/-- Witness for C2 at the literal S4 input: the query returns no
records and the store is unchanged. -/
theorem C2_bound_dirty_surface_witness :
    get_merged_texture_memory_region tr_plain mem_zero store_s1_bound
      16777216 640 480 2560 = ([], store_s1_bound) :=
  C2_bound_dirty_surface tr_plain mem_zero store_s1_bound 16777216 1
    16777216 640 480 2560 rfl rfl (by decide) (by decide)


/-! ### C10: memory-tree fit conditions -/

/-- Every record `tree_process_entry` emits satisfies the fit
conditions against the block parameters it was checked with. -/
theorem tree_process_entry_ok (heap : Nat → render_target_descriptor)
    (info_pitch info_bpp memory_address memory_end : Nat) (e : Nat × Nat)
    (r : memory_overlap_t)
    (h : tree_process_entry heap info_pitch info_bpp memory_address
      memory_end e = some r) :
    memory_address < r.memory_address ∧
    (r.memory_address - memory_address) % info_pitch +
      r.w * (heap r._ref).bpp ≤ info_pitch ∧
    (r.y + r.h) * info_pitch ≤ memory_end - memory_address := by
  unfold tree_process_entry at h
  dsimp only at h
  split_ifs at h with h1 h2 h3
  obtain rfl : _ = r := by injection h
  have hfits := (Bool.and_eq_true _ _).mp h3
  have hw := of_decide_eq_true hfits.1
  have hh := of_decide_eq_true hfits.2
  refine ⟨?_, ?_, ?_⟩
  · dsimp only
    omega
  · dsimp only
    simpa [Nat.mul_comm] using hw
  · dsimp only
    exact hh

/-- Every block `tree_process_block` produces satisfies `block_ok`. -/
theorem tree_process_block_ok (s : surface_store)
    (memory_address sid : Nat) (b : surface_hierachy_info)
    (h : tree_process_block s memory_address sid = some b) :
    block_ok s.heap b := by
  unfold tree_process_block at h
  dsimp only at h
  split_ifs at h with h1
  obtain rfl : _ = b := by injection h
  intro r hr
  dsimp only at hr ⊢
  obtain ⟨e, he, hee⟩ := List.mem_filterMap.mp hr
  exact tree_process_entry_ok s.heap _ _ _ _ e r hee

/-- C10.  If every pre-existing block satisfies the fit conditions,
then after `generate_render_target_memory_tree()` every overlap record
`(S, A, x, y, w, h)` of every block satisfies `A` strictly greater than
the block's bound address, `(A - bound_address) mod rsx_pitch + w * bpp
≤ rsx_pitch`, and `(y + h) * rsx_pitch` at most the bound surface's
footprint length; records violating either fit test are never
emitted. -/
theorem C10_memory_tree_fits (s : surface_store)
    (hprev : ∀ b ∈ s.m_memory_tree, block_ok s.heap b) :
    ∀ b ∈ (generate_render_target_memory_tree s).m_memory_tree,
      block_ok s.heap b := by
  intro b hb
  unfold generate_render_target_memory_tree at hb
  dsimp only at hb
  rcases List.mem_append.mp hb with hold | hnew
  · exact hprev b hold
  · unfold generate_blocks at hnew
    rcases List.mem_append.mp hnew with hcol | hdep
    · obtain ⟨i, _, hsome⟩ := List.mem_filterMap.mp hcol
      by_cases hz : (s.m_bound_render_targets i).1 = 0
      · rw [if_pos hz] at hsome
        exact absurd hsome (by simp)
      · rw [if_neg hz] at hsome
        exact tree_process_block_ok s _ _ b hsome
    · by_cases hz : s.m_bound_depth_stencil.1 = 0
      · rw [if_pos hz] at hdep
        exact absurd hdep (by simp)
      · rw [if_neg hz] at hdep
        exact tree_process_block_ok s _ _ b (Option.mem_toList.mp hdep)

/-- Witness for C10: the S6 store generates exactly one block, and the
theorem certifies its records. -/
theorem C10_memory_tree_fits_witness :
    (generate_render_target_memory_tree store_s6).m_memory_tree.length = 1 ∧
    ∀ b ∈ (generate_render_target_memory_tree store_s6).m_memory_tree,
      block_ok store_s6.heap b :=
  ⟨by decide,
   C10_memory_tree_fits store_s6 (fun b hb => absurd hb (List.not_mem_nil b))⟩


/-! ### C6: well-formedness and heap preservation through the bind engine -/

theorem bind_rtt_slow_wfh (tr : surface_store_traits) (s : surface_store)
    (address color_format : Nat) (antialias : surface_antialiasing)
    (width height pitch : Nat) (old cv : Option Nat)
    (ev : List backend_event) (hwf : store_wf s)
    (hold : ∀ o, old = some o → o < s.next_id) :
    s.next_id ≤ (bind_rtt_slow tr s address color_format antialias width
      height pitch old cv ev).store.next_id ∧
    (∀ a, a < s.next_id →
      (bind_rtt_slow tr s address color_format antialias width height pitch
        old cv ev).store.heap a = s.heap a) ∧
    store_wf (bind_rtt_slow tr s address color_format antialias width
      height pitch old cv ev).store ∧
    (bind_rtt_slow tr s address color_format antialias width height pitch
      old cv ev).handle <
      (bind_rtt_slow tr s address color_format antialias width height pitch
        old cv ev).store.next_id := by
  obtain ⟨hwf1, hwf2, hwf3⟩ := hwf
  simp only [bind_rtt_slow]
  rcases hsf : split_first (fun id => tr.rtt_has_format_width_height
      (s.heap id) color_format width height true) s.invalidated_resources
    with _ | ⟨pre, x, post⟩
  · cases old with
    | none =>
      refine ⟨Nat.le_succ _,
        fun a ha => Function.update_noteq (Nat.ne_of_lt ha) _ _,
        ⟨fun a id hfind => ?_, fun a id hfind => Nat.lt_succ_of_lt (hwf2 a id hfind),
         fun id hid => Nat.lt_succ_of_lt (hwf3 id hid)⟩,
        Nat.lt_succ_self _⟩
      rw [map_find_insert] at hfind
      by_cases hab : a = address
      · rw [if_pos hab] at hfind
        obtain rfl : s.next_id = id := by injection hfind
        exact Nat.lt_succ_self _
      · rw [if_neg hab] at hfind
        exact Nat.lt_succ_of_lt (hwf1 a id hfind)
    | some o =>
      refine ⟨Nat.le_succ _,
        fun a ha => Function.update_noteq (Nat.ne_of_lt ha) _ _,
        ⟨fun a id hfind => ?_, fun a id hfind => Nat.lt_succ_of_lt (hwf2 a id hfind),
         fun id hid => ?_⟩,
        Nat.lt_succ_self _⟩
      · rw [map_find_insert] at hfind
        by_cases hab : a = address
        · rw [if_pos hab] at hfind
          obtain rfl : s.next_id = id := by injection hfind
          exact Nat.lt_succ_self _
        · rw [if_neg hab] at hfind
          exact Nat.lt_succ_of_lt (hwf1 a id hfind)
      · simp at hid
        rcases hid with hid | hid
        · exact Nat.lt_succ_of_lt (hwf3 id hid)
        · exact Nat.lt_succ_of_lt (hold id (by rw [hid]))
  · have hl := split_first_eq _ _ _ _ _ hsf
    have hx : x < s.next_id := hwf3 x (by rw [hl]; simp)
    cases old with
    | none =>
      refine ⟨Nat.le_refl _, fun a ha => rfl,
        ⟨fun a id hfind => ?_, hwf2, fun id hid => ?_⟩, hx⟩
      · rw [map_find_insert] at hfind
        by_cases hab : a = address
        · rw [if_pos hab] at hfind
          obtain rfl : x = id := by injection hfind
          exact hx
        · rw [if_neg hab] at hfind
          exact hwf1 a id hfind
      · refine hwf3 id ?_
        rw [hl]
        simp at hid ⊢
        tauto
    | some o =>
      refine ⟨Nat.le_refl _, fun a ha => rfl,
        ⟨fun a id hfind => ?_, hwf2, fun id hid => ?_⟩, hx⟩
      · rw [map_find_insert] at hfind
        by_cases hab : a = address
        · rw [if_pos hab] at hfind
          obtain rfl : x = id := by injection hfind
          exact hx
        · rw [if_neg hab] at hfind
          exact hwf1 a id hfind
      · simp at hid
        rcases hid with hid | hid | hid
        · exact hwf3 id (by rw [hl]; simp [hid])
        · exact hold id (by rw [hid])
        · exact hwf3 id (by rw [hl]; simp [hid])


theorem store_wf_erase_rtt (s : surface_store) (address : Nat)
    (hwf : store_wf s) :
    store_wf { s with m_render_targets_storage := map_erase s.m_render_targets_storage address } := by
  refine ⟨fun a id hf => ?_, hwf.2.1, hwf.2.2⟩
  rw [map_find_erase] at hf
  by_cases hab : a = address
  · rw [if_pos hab] at hf
    exact absurd hf (by simp)
  · rw [if_neg hab] at hf
    exact hwf.1 a id hf

theorem store_wf_erase_ds (s : surface_store) (address : Nat)
    (hwf : store_wf s) :
    store_wf { s with m_depth_stencil_storage := map_erase s.m_depth_stencil_storage address } := by
  refine ⟨hwf.1, fun a id hf => ?_, hwf.2.2⟩
  rw [map_find_erase] at hf
  by_cases hab : a = address
  · rw [if_pos hab] at hf
    exact absurd hf (by simp)
  · rw [if_neg hab] at hf
    exact hwf.2.1 a id hf

theorem store_wf_evict_ds (s : surface_store) (address did : Nat)
    (hdid : map_find s.m_depth_stencil_storage address = some did)
    (hwf : store_wf s) :
    store_wf { s with
      m_depth_stencil_storage := map_erase s.m_depth_stencil_storage address,
      invalidated_resources := s.invalidated_resources ++ [did] } := by
  refine ⟨hwf.1, fun a id hf => ?_, fun id hid => ?_⟩
  · rw [map_find_erase] at hf
    by_cases hab : a = address
    · rw [if_pos hab] at hf
      exact absurd hf (by simp)
    · rw [if_neg hab] at hf
      exact hwf.2.1 a id hf
  · simp at hid
    rcases hid with hid | hid
    · exact hwf.2.2 id hid
    · exact hid ▸ hwf.2.1 address did hdid

theorem store_wf_evict_rtt (s : surface_store) (address rid : Nat)
    (hrid : map_find s.m_render_targets_storage address = some rid)
    (hwf : store_wf s) :
    store_wf { s with
      m_render_targets_storage := map_erase s.m_render_targets_storage address,
      invalidated_resources := s.invalidated_resources ++ [rid] } := by
  refine ⟨fun a id hf => ?_, hwf.2.1, fun id hid => ?_⟩
  · rw [map_find_erase] at hf
    by_cases hab : a = address
    · rw [if_pos hab] at hf
      exact absurd hf (by simp)
    · rw [if_neg hab] at hf
      exact hwf.1 a id hf
  · simp at hid
    rcases hid with hid | hid
    · exact hwf.2.2 id hid
    · exact hid ▸ hwf.1 address rid hrid

theorem bind_rtt_own_wfh (tr : surface_store_traits) (s : surface_store)
    (address color_format : Nat) (antialias : surface_antialiasing)
    (width height pitch : Nat) (cv : Option Nat)
    (ev1 : List backend_event) (hwf : store_wf s) :
    s.next_id ≤ (bind_rtt_own tr s address color_format antialias width
      height pitch cv ev1).store.next_id ∧
    (∀ a, a < s.next_id →
      (bind_rtt_own tr s address color_format antialias width height pitch
        cv ev1).store.heap a = s.heap a) ∧
    store_wf (bind_rtt_own tr s address color_format antialias width
      height pitch cv ev1).store ∧
    (bind_rtt_own tr s address color_format antialias width height pitch
      cv ev1).handle <
      (bind_rtt_own tr s address color_format antialias width height pitch
        cv ev1).store.next_id := by
  simp only [bind_rtt_own]
  rcases hc : map_find s.m_render_targets_storage address with _ | rid
  · exact bind_rtt_slow_wfh tr s address color_format antialias width
      height pitch none cv ev1 hwf (fun o ho => Option.noConfusion ho)
  · dsimp only
    by_cases hfmt : tr.rtt_has_format_width_height (s.heap rid)
        color_format width height false = true
    · rw [if_pos hfmt]
      exact ⟨Nat.le_refl _, fun a ha => rfl, hwf, hwf.1 address rid hc⟩
    · rw [if_neg hfmt]
      exact bind_rtt_slow_wfh tr
        { s with m_render_targets_storage := map_erase s.m_render_targets_storage address }
        address color_format antialias width height pitch (some rid) cv ev1
        (store_wf_erase_rtt s address hwf)
        (fun o ho => by
          injection ho with hro
          subst hro
          exact hwf.1 address rid hc)

theorem bind_address_as_render_targets_wfh (tr : surface_store_traits)
    (s : surface_store) (address color_format : Nat)
    (antialias : surface_antialiasing) (width height pitch : Nat)
    (hwf : store_wf s) :
    s.next_id ≤ (bind_address_as_render_targets tr s address color_format
      antialias width height pitch).store.next_id ∧
    (∀ a, a < s.next_id →
      (bind_address_as_render_targets tr s address color_format antialias
        width height pitch).store.heap a = s.heap a) ∧
    store_wf (bind_address_as_render_targets tr s address color_format
      antialias width height pitch).store ∧
    (bind_address_as_render_targets tr s address color_format antialias
      width height pitch).handle <
      (bind_address_as_render_targets tr s address color_format antialias
        width height pitch).store.next_id := by
  simp only [bind_address_as_render_targets]
  rcases hd : map_find s.m_depth_stencil_storage address with _ | did
  · exact bind_rtt_own_wfh tr s address color_format antialias width
      height pitch none [] hwf
  · dsimp only
    exact bind_rtt_own_wfh tr
      { s with
        m_depth_stencil_storage := map_erase s.m_depth_stencil_storage address,
        invalidated_resources := s.invalidated_resources ++ [did] }
      address color_format antialias width height pitch (some did)
      [backend_event.notify_surface_invalidated did]
      (store_wf_evict_ds s address did hd hwf)


theorem bind_ds_slow_wfh (tr : surface_store_traits) (s : surface_store)
    (address depth_format : Nat) (antialias : surface_antialiasing)
    (width height pitch : Nat) (old cv : Option Nat)
    (ev : List backend_event) (hwf : store_wf s)
    (hold : ∀ o, old = some o → o < s.next_id) :
    s.next_id ≤ (bind_ds_slow tr s address depth_format antialias width
      height pitch old cv ev).store.next_id ∧
    (∀ a, a < s.next_id →
      (bind_ds_slow tr s address depth_format antialias width height pitch
        old cv ev).store.heap a = s.heap a) ∧
    store_wf (bind_ds_slow tr s address depth_format antialias width
      height pitch old cv ev).store ∧
    (bind_ds_slow tr s address depth_format antialias width height pitch
      old cv ev).handle <
      (bind_ds_slow tr s address depth_format antialias width height pitch
        old cv ev).store.next_id := by
  obtain ⟨hwf1, hwf2, hwf3⟩ := hwf
  simp only [bind_ds_slow]
  rcases hsf : split_first (fun id => tr.ds_has_format_width_height
      (s.heap id) depth_format width height true) s.invalidated_resources
    with _ | ⟨pre, x, post⟩
  · cases old with
    | none =>
      refine ⟨Nat.le_succ _,
        fun a ha => Function.update_noteq (Nat.ne_of_lt ha) _ _,
        ⟨fun a id hfind => Nat.lt_succ_of_lt (hwf1 a id hfind), fun a id hfind => ?_,
         fun id hid => Nat.lt_succ_of_lt (hwf3 id hid)⟩,
        Nat.lt_succ_self _⟩
      rw [map_find_insert] at hfind
      by_cases hab : a = address
      · rw [if_pos hab] at hfind
        obtain rfl : s.next_id = id := by injection hfind
        exact Nat.lt_succ_self _
      · rw [if_neg hab] at hfind
        exact Nat.lt_succ_of_lt (hwf2 a id hfind)
    | some o =>
      refine ⟨Nat.le_succ _,
        fun a ha => Function.update_noteq (Nat.ne_of_lt ha) _ _,
        ⟨fun a id hfind => Nat.lt_succ_of_lt (hwf1 a id hfind), fun a id hfind => ?_,
         fun id hid => ?_⟩,
        Nat.lt_succ_self _⟩
      · rw [map_find_insert] at hfind
        by_cases hab : a = address
        · rw [if_pos hab] at hfind
          obtain rfl : s.next_id = id := by injection hfind
          exact Nat.lt_succ_self _
        · rw [if_neg hab] at hfind
          exact Nat.lt_succ_of_lt (hwf2 a id hfind)
      · simp at hid
        rcases hid with hid | hid
        · exact Nat.lt_succ_of_lt (hwf3 id hid)
        · exact Nat.lt_succ_of_lt (hold id (by rw [hid]))
  · have hl := split_first_eq _ _ _ _ _ hsf
    have hx : x < s.next_id := hwf3 x (by rw [hl]; simp)
    cases old with
    | none =>
      refine ⟨Nat.le_refl _, fun a ha => rfl,
        ⟨hwf1, fun a id hfind => ?_, fun id hid => ?_⟩, hx⟩
      · rw [map_find_insert] at hfind
        by_cases hab : a = address
        · rw [if_pos hab] at hfind
          obtain rfl : x = id := by injection hfind
          exact hx
        · rw [if_neg hab] at hfind
          exact hwf2 a id hfind
      · refine hwf3 id ?_
        rw [hl]
        simp at hid ⊢
        tauto
    | some o =>
      refine ⟨Nat.le_refl _, fun a ha => rfl,
        ⟨hwf1, fun a id hfind => ?_, fun id hid => ?_⟩, hx⟩
      · rw [map_find_insert] at hfind
        by_cases hab : a = address
        · rw [if_pos hab] at hfind
          obtain rfl : x = id := by injection hfind
          exact hx
        · rw [if_neg hab] at hfind
          exact hwf2 a id hfind
      · simp at hid
        rcases hid with hid | hid | hid
        · exact hwf3 id (by rw [hl]; simp [hid])
        · exact hold id (by rw [hid])
        · exact hwf3 id (by rw [hl]; simp [hid])

theorem bind_ds_own_wfh (tr : surface_store_traits) (s : surface_store)
    (address depth_format : Nat) (antialias : surface_antialiasing)
    (width height pitch : Nat) (cv : Option Nat)
    (ev1 : List backend_event) (hwf : store_wf s) :
    s.next_id ≤ (bind_ds_own tr s address depth_format antialias width
      height pitch cv ev1).store.next_id ∧
    (∀ a, a < s.next_id →
      (bind_ds_own tr s address depth_format antialias width height pitch
        cv ev1).store.heap a = s.heap a) ∧
    store_wf (bind_ds_own tr s address depth_format antialias width
      height pitch cv ev1).store ∧
    (bind_ds_own tr s address depth_format antialias width height pitch
      cv ev1).handle <
      (bind_ds_own tr s address depth_format antialias width height pitch
        cv ev1).store.next_id := by
  simp only [bind_ds_own]
  rcases hc : map_find s.m_depth_stencil_storage address with _ | did
  · exact bind_ds_slow_wfh tr s address depth_format antialias width
      height pitch none cv ev1 hwf (fun o ho => Option.noConfusion ho)
  · dsimp only
    by_cases hfmt : tr.ds_has_format_width_height (s.heap did)
        depth_format width height false = true
    · rw [if_pos hfmt]
      exact ⟨Nat.le_refl _, fun a ha => rfl, hwf, hwf.2.1 address did hc⟩
    · rw [if_neg hfmt]
      exact bind_ds_slow_wfh tr
        { s with m_depth_stencil_storage := map_erase s.m_depth_stencil_storage address }
        address depth_format antialias width height pitch (some did) cv ev1
        (store_wf_erase_ds s address hwf)
        (fun o ho => by
          injection ho with hro
          subst hro
          exact hwf.2.1 address did hc)

theorem bind_address_as_depth_stencil_wfh (tr : surface_store_traits)
    (s : surface_store) (address depth_format : Nat)
    (antialias : surface_antialiasing) (width height pitch : Nat)
    (hwf : store_wf s) :
    s.next_id ≤ (bind_address_as_depth_stencil tr s address depth_format
      antialias width height pitch).store.next_id ∧
    (∀ a, a < s.next_id →
      (bind_address_as_depth_stencil tr s address depth_format antialias
        width height pitch).store.heap a = s.heap a) ∧
    store_wf (bind_address_as_depth_stencil tr s address depth_format
      antialias width height pitch).store ∧
    (bind_address_as_depth_stencil tr s address depth_format antialias
      width height pitch).handle <
      (bind_address_as_depth_stencil tr s address depth_format antialias
        width height pitch).store.next_id := by
  simp only [bind_address_as_depth_stencil]
  rcases hd : map_find s.m_render_targets_storage address with _ | rid
  · exact bind_ds_own_wfh tr s address depth_format antialias width
      height pitch none [] hwf
  · dsimp only
    exact bind_ds_own_wfh tr
      { s with
        m_render_targets_storage := map_erase s.m_render_targets_storage address,
        invalidated_resources := s.invalidated_resources ++ [rid] }
      address depth_format antialias width height pitch (some rid)
      [backend_event.notify_surface_invalidated rid]
      (store_wf_evict_rtt s address rid hd hwf)


theorem split_first_pred (p : Nat → Bool) :
    ∀ (l pre post : List Nat) (x : Nat),
      split_first p l = some (pre, x, post) → p x = true := by
  intro l
  induction l with
  | nil => intro pre post x h; simp [split_first] at h
  | cons y ys ih =>
    intro pre post x h
    simp only [split_first] at h
    by_cases hp : p y
    · simp [hp] at h
      obtain ⟨h1, h2, h3⟩ := h
      exact h2 ▸ hp
    · rcases hys : split_first p ys with _ | ⟨pre2, x2, post2⟩ <;>
        rw [hys] at h <;> simp [hp] at h
      obtain ⟨h1, h2, h3⟩ := h
      exact h2 ▸ ih _ _ _ hys

theorem bind_rtt_fast (tr : surface_store_traits) (s : surface_store)
    (address color_format : Nat) (antialias : surface_antialiasing)
    (width height pitch : Nat) (rid : Nat)
    (hd : map_find s.m_depth_stencil_storage address = none)
    (hc : map_find s.m_render_targets_storage address = some rid)
    (hfmt : tr.rtt_has_format_width_height (s.heap rid) color_format
      width height false = true) :
    (bind_address_as_render_targets tr s address color_format antialias
      width height pitch).store = s ∧
    (bind_address_as_render_targets tr s address color_format antialias
      width height pitch).handle = rid := by
  simp only [bind_address_as_render_targets, hd, bind_rtt_own, hc]
  rw [if_pos hfmt]
  exact ⟨rfl, rfl⟩

theorem bind_ds_fast (tr : surface_store_traits) (s : surface_store)
    (address depth_format : Nat) (antialias : surface_antialiasing)
    (width height pitch : Nat) (did : Nat)
    (hc : map_find s.m_render_targets_storage address = none)
    (hd : map_find s.m_depth_stencil_storage address = some did)
    (hfmt : tr.ds_has_format_width_height (s.heap did) depth_format
      width height false = true) :
    (bind_address_as_depth_stencil tr s address depth_format antialias
      width height pitch).store = s ∧
    (bind_address_as_depth_stencil tr s address depth_format antialias
      width height pitch).handle = did := by
  simp only [bind_address_as_depth_stencil, hc, bind_ds_own, hd]
  rw [if_pos hfmt]
  exact ⟨rfl, rfl⟩

theorem bind_rtt_slow_strict (tr : surface_store_traits) (s : surface_store)
    (address color_format : Nat) (antialias : surface_antialiasing)
    (width height pitch : Nat) (old cv : Option Nat) (ev : List backend_event)
    (Hcr : ∀ a p2, tr.rtt_has_format_width_height
      (tr.create_new_rtt a color_format width height p2)
      color_format width height false = true)
    (Hlr : ∀ d, tr.rtt_has_format_width_height d color_format width height true = true →
      tr.rtt_has_format_width_height d color_format width height false = true) :
    tr.rtt_has_format_width_height
      ((bind_rtt_slow tr s address color_format antialias width height pitch
        old cv ev).store.heap
       (bind_rtt_slow tr s address color_format antialias width height pitch
        old cv ev).handle)
      color_format width height false = true := by
  simp only [bind_rtt_slow]
  rcases hsf : split_first (fun id => tr.rtt_has_format_width_height
      (s.heap id) color_format width height true) s.invalidated_resources
    with _ | ⟨pre, x, post⟩
  · cases old <;> dsimp only <;>
      rw [Function.update_same] <;> exact Hcr _ _
  · have hx := split_first_pred _ _ _ _ _ hsf
    cases old <;> dsimp only <;> exact Hlr _ hx

theorem bind_rtt_own_strict (tr : surface_store_traits) (s : surface_store)
    (address color_format : Nat) (antialias : surface_antialiasing)
    (width height pitch : Nat) (cv : Option Nat) (ev1 : List backend_event)
    (Hcr : ∀ a p2, tr.rtt_has_format_width_height
      (tr.create_new_rtt a color_format width height p2)
      color_format width height false = true)
    (Hlr : ∀ d, tr.rtt_has_format_width_height d color_format width height true = true →
      tr.rtt_has_format_width_height d color_format width height false = true) :
    tr.rtt_has_format_width_height
      ((bind_rtt_own tr s address color_format antialias width height pitch
        cv ev1).store.heap
       (bind_rtt_own tr s address color_format antialias width height pitch
        cv ev1).handle)
      color_format width height false = true := by
  simp only [bind_rtt_own]
  rcases hc : map_find s.m_render_targets_storage address with _ | rid
  · exact bind_rtt_slow_strict tr s address color_format antialias width
      height pitch none cv ev1 Hcr Hlr
  · dsimp only
    by_cases hfmt : tr.rtt_has_format_width_height (s.heap rid)
        color_format width height false = true
    · rw [if_pos hfmt]
      exact hfmt
    · rw [if_neg hfmt]
      exact bind_rtt_slow_strict tr _ address color_format antialias width
        height pitch (some rid) cv ev1 Hcr Hlr

theorem bind_rtt_strict (tr : surface_store_traits) (s : surface_store)
    (address color_format : Nat) (antialias : surface_antialiasing)
    (width height pitch : Nat)
    (Hcr : ∀ a p2, tr.rtt_has_format_width_height
      (tr.create_new_rtt a color_format width height p2)
      color_format width height false = true)
    (Hlr : ∀ d, tr.rtt_has_format_width_height d color_format width height true = true →
      tr.rtt_has_format_width_height d color_format width height false = true) :
    tr.rtt_has_format_width_height
      ((bind_address_as_render_targets tr s address color_format antialias
        width height pitch).store.heap
       (bind_address_as_render_targets tr s address color_format antialias
        width height pitch).handle)
      color_format width height false = true := by
  simp only [bind_address_as_render_targets]
  rcases hd : map_find s.m_depth_stencil_storage address with _ | did <;>
    dsimp only <;>
    exact bind_rtt_own_strict tr _ address color_format antialias width
      height pitch _ _ Hcr Hlr

theorem bind_ds_slow_strict (tr : surface_store_traits) (s : surface_store)
    (address depth_format : Nat) (antialias : surface_antialiasing)
    (width height pitch : Nat) (old cv : Option Nat) (ev : List backend_event)
    (Hcd : ∀ a p2, tr.ds_has_format_width_height
      (tr.create_new_ds a depth_format width height p2)
      depth_format width height false = true)
    (Hld : ∀ d, tr.ds_has_format_width_height d depth_format width height true = true →
      tr.ds_has_format_width_height d depth_format width height false = true) :
    tr.ds_has_format_width_height
      ((bind_ds_slow tr s address depth_format antialias width height pitch
        old cv ev).store.heap
       (bind_ds_slow tr s address depth_format antialias width height pitch
        old cv ev).handle)
      depth_format width height false = true := by
  simp only [bind_ds_slow]
  rcases hsf : split_first (fun id => tr.ds_has_format_width_height
      (s.heap id) depth_format width height true) s.invalidated_resources
    with _ | ⟨pre, x, post⟩
  · cases old <;> dsimp only <;>
      rw [Function.update_same] <;> exact Hcd _ _
  · have hx := split_first_pred _ _ _ _ _ hsf
    cases old <;> dsimp only <;> exact Hld _ hx

theorem bind_ds_own_strict (tr : surface_store_traits) (s : surface_store)
    (address depth_format : Nat) (antialias : surface_antialiasing)
    (width height pitch : Nat) (cv : Option Nat) (ev1 : List backend_event)
    (Hcd : ∀ a p2, tr.ds_has_format_width_height
      (tr.create_new_ds a depth_format width height p2)
      depth_format width height false = true)
    (Hld : ∀ d, tr.ds_has_format_width_height d depth_format width height true = true →
      tr.ds_has_format_width_height d depth_format width height false = true) :
    tr.ds_has_format_width_height
      ((bind_ds_own tr s address depth_format antialias width height pitch
        cv ev1).store.heap
       (bind_ds_own tr s address depth_format antialias width height pitch
        cv ev1).handle)
      depth_format width height false = true := by
  simp only [bind_ds_own]
  rcases hc : map_find s.m_depth_stencil_storage address with _ | did
  · exact bind_ds_slow_strict tr s address depth_format antialias width
      height pitch none cv ev1 Hcd Hld
  · dsimp only
    by_cases hfmt : tr.ds_has_format_width_height (s.heap did)
        depth_format width height false = true
    · rw [if_pos hfmt]
      exact hfmt
    · rw [if_neg hfmt]
      exact bind_ds_slow_strict tr _ address depth_format antialias width
        height pitch (some did) cv ev1 Hcd Hld

theorem bind_ds_strict (tr : surface_store_traits) (s : surface_store)
    (address depth_format : Nat) (antialias : surface_antialiasing)
    (width height pitch : Nat)
    (Hcd : ∀ a p2, tr.ds_has_format_width_height
      (tr.create_new_ds a depth_format width height p2)
      depth_format width height false = true)
    (Hld : ∀ d, tr.ds_has_format_width_height d depth_format width height true = true →
      tr.ds_has_format_width_height d depth_format width height false = true) :
    tr.ds_has_format_width_height
      ((bind_address_as_depth_stencil tr s address depth_format antialias
        width height pitch).store.heap
       (bind_address_as_depth_stencil tr s address depth_format antialias
        width height pitch).handle)
      depth_format width height false = true := by
  simp only [bind_address_as_depth_stencil]
  rcases hd : map_find s.m_render_targets_storage address with _ | rid <;>
    dsimp only <;>
    exact bind_ds_own_strict tr _ address depth_format antialias width
      height pitch _ _ Hcd Hld


theorem bind_rtt_post_fact (tr : surface_store_traits) (s : surface_store)
    (address color_format : Nat) (antialias : surface_antialiasing)
    (width height pitch : Nat)
    (Hcr : ∀ a p2, tr.rtt_has_format_width_height
      (tr.create_new_rtt a color_format width height p2)
      color_format width height false = true)
    (Hlr : ∀ d, tr.rtt_has_format_width_height d color_format width height true = true →
      tr.rtt_has_format_width_height d color_format width height false = true) :
    c6_fact tr color_format width height
      (bind_address_as_render_targets tr s address color_format antialias
        width height pitch).store address
      (bind_address_as_render_targets tr s address color_format antialias
        width height pitch).handle := by
  have hst := bind_address_as_render_targets_store tr s address color_format
    antialias width height pitch
  exact ⟨hst.2.2.1,
    bind_rtt_strict tr s address color_format antialias width height pitch Hcr Hlr,
    hst.1⟩

theorem bind_ds_post_fact (tr : surface_store_traits) (s : surface_store)
    (address depth_format : Nat) (antialias : surface_antialiasing)
    (width height pitch : Nat)
    (Hcd : ∀ a p2, tr.ds_has_format_width_height
      (tr.create_new_ds a depth_format width height p2)
      depth_format width height false = true)
    (Hld : ∀ d, tr.ds_has_format_width_height d depth_format width height true = true →
      tr.ds_has_format_width_height d depth_format width height false = true) :
    c6_fact_ds tr depth_format width height
      (bind_address_as_depth_stencil tr s address depth_format antialias
        width height pitch).store address
      (bind_address_as_depth_stencil tr s address depth_format antialias
        width height pitch).handle := by
  have hst := bind_address_as_depth_stencil_store tr s address depth_format
    antialias width height pitch
  exact ⟨hst.2.2.1,
    bind_ds_strict tr s address depth_format antialias width height pitch Hcd Hld,
    hst.1⟩

theorem c6_fact_pres_bind_rtt (tr : surface_store_traits) (s : surface_store)
    (address color_format : Nat) (antialias : surface_antialiasing)
    (width height pitch : Nat) (b rid : Nat) (hwf : store_wf s)
    (hf : c6_fact tr color_format width height s b rid) :
    c6_fact tr color_format width height
      (bind_address_as_render_targets tr s address color_format antialias
        width height pitch).store b rid := by
  by_cases hba : b = address
  · subst hba
    have hfast := bind_rtt_fast tr s b color_format antialias width height
      pitch rid hf.2.2 hf.1 hf.2.1
    rw [hfast.1]
    exact hf
  · have hst := bind_address_as_render_targets_store tr s address
      color_format antialias width height pitch
    have hwfh := bind_address_as_render_targets_wfh tr s address
      color_format antialias width height pitch hwf
    refine ⟨(hst.2.2.2.1 b hba).trans hf.1, ?_, (hst.2.1 b hba).trans hf.2.2⟩
    rw [hwfh.2.1 rid (hwf.1 b rid hf.1)]
    exact hf.2.1

theorem c6_fact_pres_bind_ds (tr : surface_store_traits) (s : surface_store)
    (address depth_format color_format : Nat)
    (antialias : surface_antialiasing) (width height pitch : Nat)
    (b rid : Nat) (hwf : store_wf s) (hba : b ≠ address)
    (hf : c6_fact tr color_format width height s b rid) :
    c6_fact tr color_format width height
      (bind_address_as_depth_stencil tr s address depth_format antialias
        width height pitch).store b rid := by
  have hst := bind_address_as_depth_stencil_store tr s address depth_format
    antialias width height pitch
  have hwfh := bind_address_as_depth_stencil_wfh tr s address depth_format
    antialias width height pitch hwf
  refine ⟨(hst.2.1 b hba).trans hf.1, ?_, (hst.2.2.2.1 b hba).trans hf.2.2⟩
  rw [hwfh.2.1 rid (hwf.1 b rid hf.1)]
  exact hf.2.1


theorem bind_slot_facts (tr : surface_store_traits) (color_format : Nat)
    (antialias : surface_antialiasing) (clip_width clip_height : Nat)
    (surface_addresses surface_pitch : Fin 4 → Nat) (i : Fin 4)
    (s0 : surface_store) (hwf0 : store_wf s0)
    (Hcr : ∀ a p2, tr.rtt_has_format_width_height
      (tr.create_new_rtt a color_format clip_width clip_height p2)
      color_format clip_width clip_height false = true)
    (Hlr : ∀ d, tr.rtt_has_format_width_height d color_format clip_width
        clip_height true = true →
      tr.rtt_has_format_width_height d color_format clip_width clip_height
        false = true) :
    store_wf (bind_slot tr color_format antialias clip_width clip_height
      surface_addresses surface_pitch i s0).1 ∧
    (bind_slot tr color_format antialias clip_width clip_height
      surface_addresses surface_pitch i s0).1.m_bound_depth_stencil =
      s0.m_bound_depth_stencil ∧
    (∀ b rid, c6_fact tr color_format clip_width clip_height s0 b rid →
      c6_fact tr color_format clip_width clip_height
        (bind_slot tr color_format antialias clip_width clip_height
          surface_addresses surface_pitch i s0).1 b rid) ∧
    (∀ a x, map_find (bind_slot tr color_format antialias clip_width
        clip_height surface_addresses surface_pitch i s0).1.m_depth_stencil_storage
        a = some x →
      map_find s0.m_depth_stencil_storage a = some x) ∧
    (∀ j, j ≠ i → (bind_slot tr color_format antialias clip_width
        clip_height surface_addresses surface_pitch i s0).1.m_bound_render_targets j =
      s0.m_bound_render_targets j) ∧
    (∃ rid, c6_fact tr color_format clip_width clip_height
      (bind_slot tr color_format antialias clip_width clip_height
        surface_addresses surface_pitch i s0).1 (surface_addresses i) rid ∧
      (bind_slot tr color_format antialias clip_width clip_height
        surface_addresses surface_pitch i s0).1.m_bound_render_targets i =
        (surface_addresses i, some rid)) := by
  have hst := bind_address_as_render_targets_store tr s0 (surface_addresses i)
    color_format antialias clip_width clip_height (surface_pitch i)
  have hwfh := bind_address_as_render_targets_wfh tr s0 (surface_addresses i)
    color_format antialias clip_width clip_height (surface_pitch i) hwf0
  have hpf := bind_rtt_post_fact tr s0 (surface_addresses i) color_format
    antialias clip_width clip_height (surface_pitch i) Hcr Hlr
  simp only [bind_slot]
  refine ⟨hwfh.2.2.1, hst.2.2.2.2.2.1, ?_, ?_, ?_, ?_⟩
  · intro b rid hf
    exact c6_fact_pres_bind_rtt tr s0 (surface_addresses i) color_format
      antialias clip_width clip_height (surface_pitch i) b rid hwf0 hf
  · intro a x hx
    by_cases hax : a = surface_addresses i
    · subst hax
      rw [hst.1] at hx
      exact absurd hx (by simp)
    · rw [hst.2.1 a hax] at hx
      exact hx
  · intro j hj
    rw [Function.update_noteq hj]
    exact congrFun hst.2.2.2.2.1 j
  · exact ⟨(bind_address_as_render_targets tr s0 (surface_addresses i)
      color_format antialias clip_width clip_height (surface_pitch i)).handle,
      hpf, Function.update_same _ _ _⟩

theorem c6_loop (tr : surface_store_traits) (color_format : Nat)
    (antialias : surface_antialiasing) (clip_width clip_height : Nat)
    (surface_addresses surface_pitch : Fin 4 → Nat)
    (Hcr : ∀ a p2, tr.rtt_has_format_width_height
      (tr.create_new_rtt a color_format clip_width clip_height p2)
      color_format clip_width clip_height false = true)
    (Hlr : ∀ d, tr.rtt_has_format_width_height d color_format clip_width
        clip_height true = true →
      tr.rtt_has_format_width_height d color_format clip_width clip_height
        false = true) :
    ∀ (idxs : List (Fin 4)) (s0 : surface_store), store_wf s0 →
      c6_loop_post tr color_format clip_width clip_height surface_addresses
        idxs s0
        (bind_loop tr color_format antialias clip_width clip_height
          surface_addresses surface_pitch idxs s0).1 := by
  intro idxs
  induction idxs with
  | nil =>
    intro s0 hwf0
    exact ⟨hwf0, rfl, fun b rid hf => hf, fun a x hx => hx, fun i hi => rfl,
      fun i hi => absurd hi (List.not_mem_nil i)⟩
  | cons i rest ih =>
    intro s0 hwf0
    by_cases hz : surface_addresses i = 0
    · have hred : (bind_loop tr color_format antialias clip_width clip_height
          surface_addresses surface_pitch (i :: rest) s0).1 =
          (bind_loop tr color_format antialias clip_width clip_height
            surface_addresses surface_pitch rest s0).1 := by
        simp only [bind_loop]
        rw [if_pos hz]
      unfold c6_loop_post
      rw [hred]
      obtain ⟨ihwf, ihd, ihc, ihdm, ihe, ihf⟩ := ih s0 hwf0
      refine ⟨ihwf, ihd, ihc, ihdm, fun j hj => ?_, fun j hj hjz => ?_⟩
      · refine ihe j ?_
        rcases hj with hj | hj
        · exact Or.inl fun hm => hj (List.mem_cons_of_mem i hm)
        · exact Or.inr hj
      · rcases List.mem_cons.mp hj with rfl | hj2
        · exact absurd hz hjz
        · exact ihf j hj2 hjz
    · have hred : (bind_loop tr color_format antialias clip_width clip_height
          surface_addresses surface_pitch (i :: rest) s0).1 =
          (bind_loop tr color_format antialias clip_width clip_height
            surface_addresses surface_pitch rest
            (bind_slot tr color_format antialias clip_width clip_height
              surface_addresses surface_pitch i s0).1).1 := by
        simp only [bind_loop]
        rw [if_neg hz]
      have hslot := bind_slot_facts tr color_format antialias clip_width
        clip_height surface_addresses surface_pitch i s0 hwf0 Hcr Hlr
      obtain ⟨ihwf, ihd, ihc, ihdm, ihe, ihf⟩ :=
        ih (bind_slot tr color_format antialias clip_width clip_height
          surface_addresses surface_pitch i s0).1 hslot.1
      unfold c6_loop_post
      rw [hred]
      refine ⟨ihwf, ihd.trans hslot.2.1, ?_, ?_, ?_, ?_⟩
      · intro b rid hf
        exact ihc b rid (hslot.2.2.1 b rid hf)
      · intro a x hx
        exact hslot.2.2.2.1 a x (ihdm a x hx)
      · intro j hj
        have hji : j ≠ i := by
          rcases hj with hj | hj
          · exact fun he => hj (he ▸ List.mem_cons_self i rest)
          · intro he
            subst he
            exact hz hj
        have hj2 : j ∉ rest ∨ surface_addresses j = 0 := by
          rcases hj with hj | hj
          · exact Or.inl fun hm => hj (List.mem_cons_of_mem i hm)
          · exact Or.inr hj
        rw [ihe j hj2]
        exact hslot.2.2.2.2.1 j hji
      · intro j hj hjz
        by_cases hjr : j ∈ rest
        · exact ihf j hjr hjz
        · have hji : j = i := by
            rcases List.mem_cons.mp hj with h | h
            · exact h
            · exact absurd h hjr
          subst hji
          obtain ⟨rid, hfact, hslotj⟩ := hslot.2.2.2.2.2
          refine ⟨rid, ihc _ _ hfact, ?_⟩
          rw [ihe j (Or.inl hjr)]
          exact hslotj


theorem c6_loop_fix (tr : surface_store_traits) (color_format : Nat)
    (antialias : surface_antialiasing) (clip_width clip_height : Nat)
    (surface_addresses surface_pitch : Fin 4 → Nat)
    (g : Fin 4 → Nat × Option Nat) :
    ∀ (idxs : List (Fin 4)) (s : surface_store),
      (∀ i ∈ idxs, surface_addresses i ≠ 0 → ∃ rid,
        c6_fact tr color_format clip_width clip_height s
          (surface_addresses i) rid ∧
        g i = (surface_addresses i, some rid)) →
      (∀ i : Fin 4, (i ∉ idxs ∨ surface_addresses i = 0) →
        s.m_bound_render_targets i = g i) →
      (bind_loop tr color_format antialias clip_width clip_height
        surface_addresses surface_pitch idxs s).1 =
        { s with m_bound_render_targets := g } := by
  intro idxs
  induction idxs with
  | nil =>
    intro s h1 h2
    have hg : s.m_bound_render_targets = g :=
      funext fun i => h2 i (Or.inl (List.not_mem_nil i))
    simp only [bind_loop]
    rw [← hg]
  | cons i rest ih =>
    intro s h1 h2
    by_cases hz : surface_addresses i = 0
    · have hred : (bind_loop tr color_format antialias clip_width clip_height
          surface_addresses surface_pitch (i :: rest) s).1 =
          (bind_loop tr color_format antialias clip_width clip_height
            surface_addresses surface_pitch rest s).1 := by
        simp only [bind_loop]
        rw [if_pos hz]
      rw [hred]
      refine ih s (fun j hj hjz => h1 j (List.mem_cons_of_mem i hj) hjz) ?_
      intro j hj
      rcases hj with hj | hj
      · by_cases hji : j = i
        · subst hji
          exact h2 j (Or.inr hz)
        · exact h2 j (Or.inl fun hm => (List.mem_cons.mp hm).elim hji hj)
      · exact h2 j (Or.inr hj)
    · obtain ⟨rid, hfact, hgi⟩ := h1 i (List.mem_cons_self i rest) hz
      have hfast := bind_rtt_fast tr s (surface_addresses i) color_format
        antialias clip_width clip_height (surface_pitch i) rid
        hfact.2.2 hfact.1 hfact.2.1
      set u := Function.update s.m_bound_render_targets i
        (surface_addresses i, some rid) with hu
      have hkey : (bind_slot tr color_format antialias clip_width clip_height
          surface_addresses surface_pitch i s).1 =
          { s with m_bound_render_targets := u } := by
        simp only [bind_slot]
        rw [hfast.1, hfast.2, hu]
      have hred : (bind_loop tr color_format antialias clip_width clip_height
          surface_addresses surface_pitch (i :: rest) s).1 =
          (bind_loop tr color_format antialias clip_width clip_height
            surface_addresses surface_pitch rest
            (bind_slot tr color_format antialias clip_width clip_height
              surface_addresses surface_pitch i s).1).1 := by
        simp only [bind_loop]
        rw [if_neg hz]
      rw [hred, hkey]
      have h1n : ∀ j ∈ rest, surface_addresses j ≠ 0 → ∃ r,
          c6_fact tr color_format clip_width clip_height
            ({ s with m_bound_render_targets := u }) (surface_addresses j) r ∧
          g j = (surface_addresses j, some r) := by
        intro j hj hjz
        obtain ⟨r, hf, hg⟩ := h1 j (List.mem_cons_of_mem i hj) hjz
        exact ⟨r, hf, hg⟩
      have h2n : ∀ j : Fin 4, (j ∉ rest ∨ surface_addresses j = 0) →
          ({ s with m_bound_render_targets := u }).m_bound_render_targets j =
            g j := by
        intro j hj
        show u j = g j
        by_cases hji : j = i
        · subst hji
          rw [hu, Function.update_same]
          exact hgi.symm
        · rw [hu, Function.update_noteq hji]
          refine h2 j ?_
          rcases hj with hj | hj
          · exact Or.inl fun hm => (List.mem_cons.mp hm).elim hji hj
          · exact Or.inr hj
      exact ih _ h1n h2n


theorem c6_prepare_post (tr : surface_store_traits)
    (color_format depth_format clip_width clip_height : Nat)
    (rtt_indexes : List (Fin 4)) (antialias : surface_antialiasing)
    (surface_addresses : Fin 4 → Nat) (address_z : Nat)
    (surface_pitch : Fin 4 → Nat) (zeta_pitch : Nat)
    (s : surface_store) (hwf : store_wf s)
    (Hcr : ∀ a p2, tr.rtt_has_format_width_height
      (tr.create_new_rtt a color_format clip_width clip_height p2)
      color_format clip_width clip_height false = true)
    (Hlr : ∀ d, tr.rtt_has_format_width_height d color_format clip_width
        clip_height true = true →
      tr.rtt_has_format_width_height d color_format clip_width clip_height
        false = true)
    (Hcd : ∀ a p2, tr.ds_has_format_width_height
      (tr.create_new_ds a depth_format clip_width clip_height p2)
      depth_format clip_width clip_height false = true)
    (Hld : ∀ d, tr.ds_has_format_width_height d depth_format clip_width
        clip_height true = true →
      tr.ds_has_format_width_height d depth_format clip_width clip_height
        false = true)
    (Hsep : ∀ i ∈ rtt_indexes,
      surface_addresses i = 0 ∨ surface_addresses i ≠ address_z) :
    c6_ready tr color_format depth_format clip_width clip_height
      surface_addresses rtt_indexes address_z
      (prepare_render_target tr s color_format depth_format clip_width
        clip_height rtt_indexes antialias surface_addresses address_z
        surface_pitch zeta_pitch).1 := by
  have hwfc : store_wf (pre_loop_store s) := hwf
  have hpost := c6_loop tr color_format antialias clip_width clip_height
    surface_addresses surface_pitch Hcr Hlr rtt_indexes (pre_loop_store s) hwfc
  by_cases hz0 : address_z = 0
  · have e0 : (prepare_render_target tr s color_format depth_format clip_width
        clip_height rtt_indexes antialias surface_addresses address_z
        surface_pitch zeta_pitch).1 =
        prep_mid tr color_format antialias clip_width clip_height rtt_indexes
          surface_addresses surface_pitch s := by
      simp only [prepare_render_target, prep_mid, pre_loop_store]
      rw [if_pos hz0]
    rw [e0]
    unfold c6_ready
    refine ⟨?_, ?_, ?_⟩
    · intro i hi hiz
      obtain ⟨rid, hf, hs⟩ := hpost.2.2.2.2.2 i hi hiz
      exact ⟨rid, hf, hs⟩
    · intro i hi
      exact hpost.2.2.2.2.1 i hi
    · rw [if_pos hz0]
      rfl
  · have e0 : (prepare_render_target tr s color_format depth_format clip_width
        clip_height rtt_indexes antialias surface_addresses address_z
        surface_pitch zeta_pitch).1 =
        { (bind_address_as_depth_stencil tr
            (prep_mid tr color_format antialias clip_width clip_height
              rtt_indexes surface_addresses surface_pitch s)
            address_z depth_format antialias clip_width clip_height
            zeta_pitch).store with
          m_bound_depth_stencil := (address_z, some
            (bind_address_as_depth_stencil tr
              (prep_mid tr color_format antialias clip_width clip_height
                rtt_indexes surface_addresses surface_pitch s)
              address_z depth_format antialias clip_width clip_height
              zeta_pitch).handle) } := by
      simp only [prepare_render_target, prep_mid, pre_loop_store]
      rw [if_neg hz0]
    have hwfse : store_wf (prep_mid tr color_format antialias clip_width
        clip_height rtt_indexes surface_addresses surface_pitch s) := hpost.1
    have hstd := bind_address_as_depth_stencil_store tr
      (prep_mid tr color_format antialias clip_width clip_height rtt_indexes
        surface_addresses surface_pitch s)
      address_z depth_format antialias clip_width clip_height zeta_pitch
    rw [e0]
    unfold c6_ready
    refine ⟨?_, ?_, ?_⟩
    · intro i hi hiz
      obtain ⟨rid, hf, hs⟩ := hpost.2.2.2.2.2 i hi hiz
      have hsepi : surface_addresses i ≠ address_z :=
        (Hsep i hi).resolve_left hiz
      have hff := c6_fact_pres_bind_ds tr
        (prep_mid tr color_format antialias clip_width clip_height rtt_indexes
          surface_addresses surface_pitch s)
        address_z depth_format color_format antialias clip_width clip_height
        zeta_pitch (surface_addresses i) rid hwfse hsepi hf
      exact ⟨rid, hff, (congrFun hstd.2.2.2.2.1 i).trans hs⟩
    · intro i hi
      exact (congrFun hstd.2.2.2.2.1 i).trans (hpost.2.2.2.2.1 i hi)
    · rw [if_neg hz0]
      refine ⟨(bind_address_as_depth_stencil tr
        (prep_mid tr color_format antialias clip_width clip_height rtt_indexes
          surface_addresses surface_pitch s)
        address_z depth_format antialias clip_width clip_height
        zeta_pitch).handle, ?_, rfl⟩
      exact bind_ds_post_fact tr
        (prep_mid tr color_format antialias clip_width clip_height rtt_indexes
          surface_addresses surface_pitch s)
        address_z depth_format antialias clip_width clip_height zeta_pitch
        Hcd Hld


theorem c6_prepare_fast (tr : surface_store_traits)
    (color_format depth_format clip_width clip_height : Nat)
    (rtt_indexes : List (Fin 4)) (antialias : surface_antialiasing)
    (surface_addresses : Fin 4 → Nat) (address_z : Nat)
    (surface_pitch : Fin 4 → Nat) (zeta_pitch : Nat)
    (s1 : surface_store)
    (hready : c6_ready tr color_format depth_format clip_width clip_height
      surface_addresses rtt_indexes address_z s1) :
    rebind_agrees
      (prepare_render_target tr s1 color_format depth_format clip_width
        clip_height rtt_indexes antialias surface_addresses address_z
        surface_pitch zeta_pitch).1 s1 := by
  have h1n : ∀ i ∈ rtt_indexes, surface_addresses i ≠ 0 → ∃ rid,
      c6_fact tr color_format clip_width clip_height (pre_loop_store s1)
        (surface_addresses i) rid ∧
      s1.m_bound_render_targets i = (surface_addresses i, some rid) := by
    intro i hi hiz
    obtain ⟨rid, hf, hs⟩ := hready.1 i hi hiz
    exact ⟨rid, hf, hs⟩
  have h2n : ∀ i : Fin 4, (i ∉ rtt_indexes ∨ surface_addresses i = 0) →
      (pre_loop_store s1).m_bound_render_targets i =
        s1.m_bound_render_targets i := by
    intro i hi
    exact (hready.2.1 i hi).symm
  have hfix := c6_loop_fix tr color_format antialias clip_width clip_height
    surface_addresses surface_pitch s1.m_bound_render_targets rtt_indexes
    (pre_loop_store s1) h1n h2n
  have e2 : prep_mid tr color_format antialias clip_width clip_height
      rtt_indexes surface_addresses surface_pitch s1 =
      { { pre_loop_store s1 with
            m_bound_render_targets := s1.m_bound_render_targets } with
          m_bound_depth_stencil := (0, none) } := by
    unfold prep_mid
    rw [hfix]
  by_cases hz0 : address_z = 0
  · have e1 : (prepare_render_target tr s1 color_format depth_format
        clip_width clip_height rtt_indexes antialias surface_addresses
        address_z surface_pitch zeta_pitch).1 =
        prep_mid tr color_format antialias clip_width clip_height rtt_indexes
          surface_addresses surface_pitch s1 := by
      simp only [prepare_render_target, prep_mid, pre_loop_store]
      rw [if_pos hz0]
    rw [e1, e2]
    have h3 := hready.2.2
    rw [if_pos hz0] at h3
    exact ⟨rfl, h3.symm, rfl, rfl, rfl, rfl, rfl⟩
  · have e1 : (prepare_render_target tr s1 color_format depth_format
        clip_width clip_height rtt_indexes antialias surface_addresses
        address_z surface_pitch zeta_pitch).1 =
        { (bind_address_as_depth_stencil tr
            (prep_mid tr color_format antialias clip_width clip_height
              rtt_indexes surface_addresses surface_pitch s1)
            address_z depth_format antialias clip_width clip_height
            zeta_pitch).store with
          m_bound_depth_stencil := (address_z, some
            (bind_address_as_depth_stencil tr
              (prep_mid tr color_format antialias clip_width clip_height
                rtt_indexes surface_addresses surface_pitch s1)
              address_z depth_format antialias clip_width clip_height
              zeta_pitch).handle) } := by
      simp only [prepare_render_target, prep_mid, pre_loop_store]
      rw [if_neg hz0]
    have h3 := hready.2.2
    rw [if_neg hz0] at h3
    obtain ⟨did, hfds, hdep⟩ := h3
    rw [e1, e2]
    have hfast := bind_ds_fast tr
      ({ { pre_loop_store s1 with
            m_bound_render_targets := s1.m_bound_render_targets } with
          m_bound_depth_stencil := (0, none) })
      address_z depth_format antialias clip_width clip_height zeta_pitch did
      hfds.2.2 hfds.1 hfds.2.1
    rw [hfast.1, hfast.2]
    exact ⟨rfl, hdep.symm, rfl, rfl, rfl, rfl, rfl⟩


/-- C6: a second `prepare_render_target` call with identical arguments
leaves all surface state of the first call intact - the bound color
slots and bound depth slot hold the identical handles, and
`invalidated_resources` (as well as both storage maps, the surface heap
and the id counter) is unchanged - provided the backend checks are
honest: a freshly created surface passes the strict format/size check
(`Hcr`/`Hcd`), the lenient check implies the strict one (`Hlr`/`Hld`),
no requested color address collides with the depth address (`Hsep`),
and the store is well formed.  Without the lenient-implies-strict
assumption the claim fails: see `C6_rebind_counterexample`. -/
theorem C6_rebind_state_noop (tr : surface_store_traits)
    (color_format depth_format clip_width clip_height : Nat)
    (rtt_indexes : List (Fin 4)) (antialias : surface_antialiasing)
    (surface_addresses : Fin 4 → Nat) (address_z : Nat)
    (surface_pitch : Fin 4 → Nat) (zeta_pitch : Nat)
    (s : surface_store) (hwf : store_wf s)
    (Hcr : ∀ a p2, tr.rtt_has_format_width_height
      (tr.create_new_rtt a color_format clip_width clip_height p2)
      color_format clip_width clip_height false = true)
    (Hlr : ∀ d, tr.rtt_has_format_width_height d color_format clip_width
        clip_height true = true →
      tr.rtt_has_format_width_height d color_format clip_width clip_height
        false = true)
    (Hcd : ∀ a p2, tr.ds_has_format_width_height
      (tr.create_new_ds a depth_format clip_width clip_height p2)
      depth_format clip_width clip_height false = true)
    (Hld : ∀ d, tr.ds_has_format_width_height d depth_format clip_width
        clip_height true = true →
      tr.ds_has_format_width_height d depth_format clip_width clip_height
        false = true)
    (Hsep : ∀ i ∈ rtt_indexes,
      surface_addresses i = 0 ∨ surface_addresses i ≠ address_z) :
    rebind_agrees
      (prepare_render_target tr
        (prepare_render_target tr s color_format depth_format clip_width
          clip_height rtt_indexes antialias surface_addresses address_z
          surface_pitch zeta_pitch).1
        color_format depth_format clip_width clip_height rtt_indexes
        antialias surface_addresses address_z surface_pitch zeta_pitch).1
      (prepare_render_target tr s color_format depth_format clip_width
        clip_height rtt_indexes antialias surface_addresses address_z
        surface_pitch zeta_pitch).1 :=
  c6_prepare_fast tr color_format depth_format clip_width clip_height
    rtt_indexes antialias surface_addresses address_z surface_pitch
    zeta_pitch _
    (c6_prepare_post tr color_format depth_format clip_width clip_height
      rtt_indexes antialias surface_addresses address_z surface_pitch
      zeta_pitch s hwf Hcr Hlr Hcd Hld Hsep)

/-- C6 counterexample: with a backend whose color check passes only in
lenient mode, two identical `prepare_render_target` calls (color slot 0
at address 4096, one pooled surface id 5) do not commute with the
claim: the first call binds pooled surface 5, the second evicts it and
binds a fresh surface 1, and `invalidated_resources` grows from `[]` to
`[5]`. -/
theorem C6_rebind_counterexample :
    (c6_s1.m_bound_render_targets 0).2 = some 5 ∧
    (c6_s2.m_bound_render_targets 0).2 = some 1 ∧
    c6_s1.invalidated_resources = [] ∧
    c6_s2.invalidated_resources = [5] := by
  decide

/-- C6 witness: the amended theorem applied to the honest backend
`tr_honest` on the empty store, binding color slot 0 at 4096 with no
depth buffer. -/
theorem C6_rebind_state_noop_witness :
    rebind_agrees
      (prepare_render_target tr_honest
        (prepare_render_target tr_honest {} 0 0 64 64 [0] .center_1_sample
          c6_addrs 0 c6_pitch 0).1
        0 0 64 64 [0] .center_1_sample c6_addrs 0 c6_pitch 0).1
      (prepare_render_target tr_honest {} 0 0 64 64 [0] .center_1_sample
        c6_addrs 0 c6_pitch 0).1 :=
  C6_rebind_state_noop tr_honest 0 0 64 64 [0] .center_1_sample c6_addrs 0
    c6_pitch 0 {}
    ⟨fun a id h => by simp [map_find] at h,
     fun a id h => by simp [map_find] at h,
     fun id h => by simp at h⟩
    (fun a p2 => rfl) (fun d h => rfl) (fun a p2 => rfl) (fun d h => rfl)
    (by decide)

end Rsx
